import Mathlib

/-!
# pv-migration: the storage migration orchestrator

A shallow embedding of `src/pv-migration/main.go` (`migrateStorage`).

The program is one sequential function that talks to a Kubernetes API server and to
the local file system.  The embedding makes both explicit:

* `World` is what the program can observe and change: the API objects and the files.
* `Reply` is what the outside world answers to the n-th request; every request and every
  `defer` statement is logged in `State.trace`, and the number of log entries so far
  selects the reply, so a theorem quantified over the reply function covers every
  pattern of request failures.
* `defer` statements push a `Deferred` value on `State.deferred`; the stack is unwound
  when `migrateStorage` returns or panics, as the Go runtime does.
* run-time panics (nil pointer dereference, write to a nil map, explicit `panic`) and the
  unbounded deletion poll are explicit results (`Flow.panicked`, `Flow.stuck`).
* `strings.EqualFold` (lines 122 and 160) folds case with the table
  `unicode.SimpleFold` of the Go library; the table is the parameter `simpleFold` of the
  definitions that compare strings, and the theorems hold for every table.
-/

namespace PVMigration

/-! ## Go maps with string keys -/

/-- Reading `m[k]`: the value and whether the key is present. -/
def mapGet {β : Type} (m : List (String × β)) (k : String) : Option β :=
  m.lookup k

/-- Builtin `delete(m, k)`; a no-op when the key is absent (and on a nil map). -/
def mapDelete {β : Type} (m : List (String × β)) (k : String) : List (String × β) :=
  m.filter (fun e => e.1 != k)

/-- Assignment `m[k] = v` on a non-nil map. -/
def mapSet {β : Type} (m : List (String × β)) (k : String) (v : β) : List (String × β) :=
  (k, v) :: mapDelete m k

/-- The loop of `strings.EqualFold` for two different runes `sr < tr` of which `tr` is
not ASCII: `r := unicode.SimpleFold(sr)`, then `r = unicode.SimpleFold(r)` as long as
`r != sr && r < tr`, and the answer is `r == tr`.  The table `unicode.SimpleFold` of the
Go library is the parameter `simpleFold`.  There are 1114112 code points, so a loop
that has not ended after that many steps never ends; the model answers false there. -/
def foldReaches (simpleFold : Char → Char) (sr tr : Char) : Nat → Char → Bool
  | 0, _ => false
  | steps + 1, r =>
    if r != sr && decide (r < tr) then foldReaches simpleFold sr tr steps (simpleFold r)
    else r == tr

/-- One pair of runes in `strings.EqualFold`: equal runes match; otherwise the runes are
ordered as `sr < tr`, two ASCII runes match when `sr` is an upper-case letter and `tr`
its lower-case form (`'A' <= sr && sr <= 'Z' && tr == sr+'a'-'A'`), and in the general
case `tr` must be reached from `sr` in the folding table. -/
def equalFoldRune (simpleFold : Char → Char) (a b : Char) : Bool :=
  if a == b then true
  else
    let sr := if a < b then a else b
    let tr := if a < b then b else a
    if tr.toNat < 128 then
      decide (65 ≤ sr.toNat) && decide (sr.toNat ≤ 90) && tr.toNat == sr.toNat + 32
    else foldReaches simpleFold sr tr 1114112 (simpleFold sr)

/-- The function `strings.EqualFold` on the runes of its arguments: rune by rune, and
both strings must end together. -/
def equalFoldRunes (simpleFold : Char → Char) : List Char → List Char → Bool
  | [], [] => true
  | a :: s, b :: t => equalFoldRune simpleFold a b && equalFoldRunes simpleFold s t
  | _, _ => false

/-- The function `strings.EqualFold`: equality under Unicode simple case folding, with
the folding table `unicode.SimpleFold` as parameter.  Strings are sequences of runes
(the API server and the flags give valid UTF-8). -/
def equalFold (simpleFold : Char → Char) (s t : String) : Bool :=
  equalFoldRunes simpleFold s.data t.data

/-! ## API objects (the fields the program reads or writes) -/

/-- A `resource.Quantity`.  The program copies quantities and renders them with
`String()`; the field is the canonical rendering of a non-zero quantity, and the zero
value of the Go type (what a missing map key yields) has the empty field. -/
structure Quantity where
  s : String
deriving DecidableEq, Repr

/-- The method `(*Quantity).String`: the canonical form, which is "0" for the zero
quantity and therefore never the empty string. -/
def Quantity.String (q : Quantity) : String :=
  if q.s = "" then "0" else q.s

/-- The type `metav1.OwnerReference`. -/
structure OwnerReference where
  Kind : String
  Name : String
deriving DecidableEq, Repr

/-- The type `corev1.ObjectReference`. -/
structure ObjectReference where
  Kind : String
  Name : String
  Namespace : String
  APIVersion : String
deriving DecidableEq, Repr

/-- The type `corev1.AzureDiskVolumeSource`. -/
structure AzureDiskVolumeSource where
  DataDiskURI : String
deriving DecidableEq, Repr

/-- The type `corev1.CSIPersistentVolumeSource`. -/
structure CSIPersistentVolumeSource where
  Driver : String
  VolumeHandle : String
  VolumeAttributes : List (String × String)
deriving DecidableEq, Repr

/-- The type `corev1.PersistentVolume`; pointer fields are options (`none` is nil). -/
structure PersistentVolume where
  Name : String
  Annotations : List (String × String)
  AccessModes : List String
  Capacity : List (String × Quantity)
  AzureDisk : Option AzureDiskVolumeSource
  CSI : Option CSIPersistentVolumeSource
  ClaimRef : Option ObjectReference
  PersistentVolumeReclaimPolicy : String
  StorageClassName : String
deriving DecidableEq, Repr

/-- The type `corev1.PersistentVolumeClaim`.  `DeletionPending` stands for a set
`metadata.deletionTimestamp`: the delete request was accepted and the object is still
served until its finalizers are done. -/
structure PersistentVolumeClaim where
  Name : String
  Namespace : String
  Labels : List (String × String)
  Annotations : List (String × String)
  AccessModes : List String
  Requests : List (String × Quantity)
  StorageClassName : Option String
  VolumeName : String
  DeletionPending : Bool
deriving DecidableEq, Repr

/-- The type `corev1.Volume` of a pod: `PersistentVolumeClaim` is nil or carries the
claim name. -/
structure Volume where
  Name : String
  PersistentVolumeClaim : Option String
deriving DecidableEq, Repr

/-- The type `corev1.Pod`. -/
structure Pod where
  Name : String
  Namespace : String
  OwnerReferences : List OwnerReference
  Volumes : List Volume
deriving DecidableEq, Repr

/-- The four typed clients of `client.AppsV1()` the program uses. -/
inductive Kind where
  | DaemonSet
  | StatefulSet
  | ReplicaSet
  | Deployment
deriving DecidableEq, Repr

/-- A workload controller object (`appsv1.DaemonSet`, `StatefulSet`, `ReplicaSet`,
`Deployment`): object metadata, `Spec.Replicas` (a `*int32`, absent on a DaemonSet) and
`Spec.Template.Spec.NodeSelector` (a map, `none` is the nil map). -/
structure Workload where
  Name : String
  Namespace : String
  OwnerReferences : List OwnerReference
  Replicas : Option Int
  NodeSelector : Option (List (String × String))
deriving DecidableEq, Repr

/-- The type `storagev1.StorageClass`. -/
structure StorageClass where
  Name : String
  Parameters : List (String × String)
deriving DecidableEq, Repr

/-- What `os.WriteFile` is given: `json.Marshal(pvName)` or a marshalled claim. -/
inductive FileContent where
  | name (pvName : String)
  | claim (pvc : PersistentVolumeClaim)
deriving DecidableEq, Repr

/-- The API server's objects and the local files. -/
structure World where
  storageClasses : List StorageClass
  pvs : List PersistentVolume
  pvcs : List PersistentVolumeClaim
  pods : List Pod
  workloads : List (Kind × Workload)
  files : List (String × FileContent)
deriving DecidableEq, Repr

/-! ## Requests, deferred calls and the log -/

/-- A request to the API server or the file system, with what is sent. -/
inductive Call where
  | mkdir (dir : String)
  | getStorageClass (name : String)
  | listPVs
  | updatePV (pv : PersistentVolume)
  | createPV (pv : PersistentVolume)
  | deletePV (name : String)
  | listPods (ns : String)
  | getWorkload (kind : Kind) (ns name : String)
  | updateWorkload (kind : Kind) (ns : String) (obj : Workload)
  | getPVC (ns name : String)
  | deletePVC (ns name : String)
  | createPVC (ns : String) (pvc : PersistentVolumeClaim)
  | writeFile (path : String) (content : FileContent)
deriving DecidableEq, Repr

/-- The closures handed to `defer`, with the variables they capture. -/
inductive Deferred where
  | deletePV (pvName : String)
  | restoreDaemonSet (ns name : String)
  | restoreReplicas (kind : Kind) (ns name : String) (originalReplicas : Option Int)
deriving DecidableEq, Repr

/-- One log entry: a request with whether it succeeded, a `defer` statement, or the
start of a deferred call. -/
inductive Event where
  | call (c : Call) (ok : Bool)
  | registered (d : Deferred)
  | ran (d : Deferred)
deriving DecidableEq, Repr

/-- The answer of the outside world to a request: served, failed, or (for a read of an
object whose deletion is pending) served with the object still there. -/
inductive Reply where
  | ok
  | err
  | lag
deriving DecidableEq, Repr

/-- The state of a run: the world, the log, the `controllerRefs` map (its keys) and the
stack of deferred calls (most recent first). -/
structure State where
  world : World
  trace : List Event
  controllerRefs : List String
  deferred : List Deferred
deriving DecidableEq, Repr

/-- Log a request with its result and the world after it. -/
def State.emit (st : State) (c : Call) (ok : Bool) (w : World) : State :=
  { st with world := w, trace := st.trace ++ [Event.call c ok] }

/-- A `defer` statement. -/
def State.defer (st : State) (d : Deferred) : State :=
  { st with deferred := d :: st.deferred, trace := st.trace ++ [Event.registered d] }

/-- Whether the request about to be issued fails for an outside reason. -/
def faulty (env : Nat → Reply) (st : State) : Bool :=
  env st.trace.length == Reply.err

/-! ## The API server and the file system -/

/-- The error of a read: `errors.IsNotFound` or any other. -/
inductive ApiError where
  | notFound
  | other
deriving DecidableEq, Repr

/-- The stored volume of that name. -/
def findPV (w : World) (name : String) : Option PersistentVolume :=
  w.pvs.find? (fun p => p.Name == name)

/-- The stored claim of that namespace and name. -/
def findPVC (w : World) (ns name : String) : Option PersistentVolumeClaim :=
  w.pvcs.find? (fun c => c.Namespace == ns && c.Name == name)

/-- The stored controller of that kind, namespace and name. -/
def findWorkload (w : World) (kind : Kind) (ns name : String) : Option Workload :=
  (w.workloads.find? (fun e => e.1 == kind && e.2.Namespace == ns && e.2.Name == name)).map
    Prod.snd

/-- The call `os.Mkdir(clustername, 0755)`; an existing directory is not an error for
the program, so only other failures are reported. -/
def mkdir (env : Nat → Reply) (dir : String) (st : State) : Bool × State :=
  if faulty env st then (false, st.emit (.mkdir dir) false st.world)
  else (true, st.emit (.mkdir dir) true st.world)

/-- The request `StorageClasses().Get`. -/
def getStorageClass (env : Nat → Reply) (name : String) (st : State) :
    Option StorageClass × State :=
  if faulty env st then (none, st.emit (.getStorageClass name) false st.world)
  else
    match st.world.storageClasses.find? (fun c => c.Name == name) with
    | none => (none, st.emit (.getStorageClass name) false st.world)
    | some c => (some c, st.emit (.getStorageClass name) true st.world)

/-- The request `PersistentVolumes().List`. -/
def listPVs (env : Nat → Reply) (st : State) : Option (List PersistentVolume) × State :=
  if faulty env st then (none, st.emit .listPVs false st.world)
  else (some st.world.pvs, st.emit .listPVs true st.world)

/-- The request `PersistentVolumes().Update`: replaces the stored object of that name. -/
def updatePV (env : Nat → Reply) (pv : PersistentVolume) (st : State) : Bool × State :=
  if faulty env st || pv.Name == "" || (findPV st.world pv.Name).isNone then
    (false, st.emit (.updatePV pv) false st.world)
  else
    (true, st.emit (.updatePV pv) true
      { st.world with pvs := st.world.pvs.map (fun p => if p.Name == pv.Name then pv else p) })

/-- The request `PersistentVolumes().Create`: fails when the name is taken. -/
def createPV (env : Nat → Reply) (pv : PersistentVolume) (st : State) : Bool × State :=
  if faulty env st || pv.Name == "" || (findPV st.world pv.Name).isSome then
    (false, st.emit (.createPV pv) false st.world)
  else
    (true, st.emit (.createPV pv) true { st.world with pvs := st.world.pvs ++ [pv] })

/-- The request `PersistentVolumes().Delete`. -/
def deletePV (env : Nat → Reply) (name : String) (st : State) : Bool × State :=
  if faulty env st || (findPV st.world name).isNone then
    (false, st.emit (.deletePV name) false st.world)
  else
    (true, st.emit (.deletePV name) true
      { st.world with pvs := st.world.pvs.filter (fun p => p.Name != name) })

/-- The request `Pods(ns).List`: the pods of that namespace. -/
def listPods (env : Nat → Reply) (ns : String) (st : State) : Option (List Pod) × State :=
  if faulty env st then (none, st.emit (.listPods ns) false st.world)
  else (some (st.world.pods.filter (fun p => p.Namespace == ns)),
        st.emit (.listPods ns) true st.world)

/-- The request `Get` of a typed apps client. -/
def getWorkload (env : Nat → Reply) (kind : Kind) (ns name : String) (st : State) :
    Option Workload × State :=
  if faulty env st then (none, st.emit (.getWorkload kind ns name) false st.world)
  else
    match findWorkload st.world kind ns name with
    | none => (none, st.emit (.getWorkload kind ns name) false st.world)
    | some o => (some o, st.emit (.getWorkload kind ns name) true st.world)

/-- The request `Update` of a typed apps client: replaces the stored object with the
name of the one sent, in the namespace of the client. -/
def updateWorkload (env : Nat → Reply) (kind : Kind) (ns : String) (obj : Workload)
    (st : State) : Bool × State :=
  if faulty env st || obj.Name == "" || (findWorkload st.world kind ns obj.Name).isNone then
    (false, st.emit (.updateWorkload kind ns obj) false st.world)
  else
    (true, st.emit (.updateWorkload kind ns obj) true
      { st.world with
        workloads := st.world.workloads.map (fun e =>
          if e.1 == kind && e.2.Namespace == ns && e.2.Name == obj.Name then (kind, obj)
          else e) })

/-- The request `PersistentVolumeClaims(ns).Get`.  A claim whose deletion is pending is
still served while the reply is `lag`, and is gone (not found) from the first other
reply on. -/
def getPVC (env : Nat → Reply) (ns name : String) (st : State) :
    Except ApiError PersistentVolumeClaim × State :=
  if faulty env st then (.error .other, st.emit (.getPVC ns name) false st.world)
  else
    match findPVC st.world ns name with
    | none => (.error .notFound, st.emit (.getPVC ns name) false st.world)
    | some c =>
      if c.DeletionPending && env st.trace.length != Reply.lag then
        (.error .notFound, st.emit (.getPVC ns name) false
          { st.world with
            pvcs := st.world.pvcs.filter (fun c => !(c.Namespace == ns && c.Name == name)) })
      else (.ok c, st.emit (.getPVC ns name) true st.world)

/-- The request `PersistentVolumeClaims(ns).Delete` with foreground propagation: the
claim is marked and goes away once its finalizers are done. -/
def deletePVC (env : Nat → Reply) (ns name : String) (st : State) : Bool × State :=
  if faulty env st || (findPVC st.world ns name).isNone then
    (false, st.emit (.deletePVC ns name) false st.world)
  else
    (true, st.emit (.deletePVC ns name) true
      { st.world with
        pvcs := st.world.pvcs.map (fun c =>
          if c.Namespace == ns && c.Name == name then { c with DeletionPending := true }
          else c) })

/-- The request `PersistentVolumeClaims(ns).Create`: fails when the name is taken. -/
def createPVC (env : Nat → Reply) (ns : String) (pvc : PersistentVolumeClaim) (st : State) :
    Bool × State :=
  if faulty env st || pvc.Name == "" || (findPVC st.world ns pvc.Name).isSome then
    (false, st.emit (.createPVC ns pvc) false st.world)
  else
    (true, st.emit (.createPVC ns pvc) true { st.world with pvcs := st.world.pvcs ++ [pvc] })

/-- The call `os.WriteFile`. -/
def writeFile (env : Nat → Reply) (path : String) (content : FileContent) (st : State) :
    Bool × State :=
  if faulty env st then (false, st.emit (.writeFile path content) false st.world)
  else
    (true, st.emit (.writeFile path content) true
      { st.world with files := (path, content) :: mapDelete st.world.files path })

/-! ## The program -/

/-- The command-line flags, and whether the kubeconfig file can be read and yields a
client. -/
structure Flags where
  existingStorageClass : String
  newStorageClass : String
  clustername : String
  deletePVs : Bool
  kubeconfigExists : Bool
  kubeconfigValid : Bool
deriving DecidableEq, Repr

/-- How a piece of the loop body ends: it falls through to the next statement
(`proceed`), executes `continue` (`skip`), panics, or never leaves the deletion poll. -/
inductive Flow where
  | proceed (st : State)
  | skip (st : State)
  | panicked (st : State)
  | stuck (st : State)
deriving DecidableEq, Repr

/-- The state a piece of the program ends in. -/
def Flow.state : Flow → State
  | .proceed st => st
  | .skip st => st
  | .panicked st => st
  | .stuck st => st

/-- A `for _, x := range xs` loop: `continue` and the end of the body both go on with
the next element; a panic or a poll that never ends leaves the loop. -/
def forRange {α : Type} (body : α → State → Flow) : List α → State → Flow
  | [], st => .proceed st
  | x :: xs, st =>
    match body x st with
    | .proceed st1 => forRange body xs st1
    | .skip st1 => forRange body xs st1
    | .panicked st1 => .panicked st1
    | .stuck st1 => .stuck st1

/-- The key `fmt.Sprintf("%s/%s/%s", controllerKind, claimRefNamespace, controllerName)`. -/
def controllerRefKey (controllerKind claimRefNamespace controllerName : String) : String :=
  controllerKind ++ "/" ++ claimRefNamespace ++ "/" ++ controllerName

/-- The object a typed client's `Get` returns together with an error: a fresh zero
value, never nil. -/
def emptyWorkload : Workload :=
  { Name := "", Namespace := "", OwnerReferences := [], Replicas := none, NodeSelector := none }

/-- Lines 214-242, 291-312 and 316-344: read the controller, remember its replica
count, set it to 0, and defer the restoration. -/
def scaleDown (env : Nat → Reply) (kind : Kind) (ns name : String) (st : State) : Flow :=
  match getWorkload env kind ns name st with
  | (none, st1) => .skip st1
  | (some obj, st1) =>
    let originalReplicas := obj.Replicas
    match updateWorkload env kind ns { obj with Replicas := some 0 } st1 with
    | (false, st2) => .skip st2
    | (true, st2) => .proceed (st2.defer (.restoreReplicas kind ns name originalReplicas))

/-- Lines 177-349: the body of the loop over a pod's volumes once the pod's first owner
is known.  The key is computed from the pod's owner before the `switch`; it is stored
only when the `switch` falls through. -/
def pauseController (env : Nat → Reply) (claimRefNamespace controllerKind controllerName : String)
    (st : State) : Flow :=
  let key := controllerRefKey controllerKind claimRefNamespace controllerName
  if key ∈ st.controllerRefs then .skip st
  else
    let switched : Flow :=
      if controllerKind = "DaemonSet" then
        match getWorkload env .DaemonSet claimRefNamespace controllerName st with
        | (none, st1) => .skip st1
        | (some daemonset, st1) =>
          match daemonset.NodeSelector with
          | none => .panicked st1
          | some sel =>
            match updateWorkload env .DaemonSet claimRefNamespace
                { daemonset with
                  NodeSelector := some (mapSet sel "storage-migration" "in-progress") } st1 with
            | (false, st2) => .skip st2
            | (true, st2) =>
              .proceed (st2.defer (.restoreDaemonSet claimRefNamespace controllerName))
      else if controllerKind = "StatefulSet" then
        scaleDown env .StatefulSet claimRefNamespace controllerName st
      else if controllerKind = "ReplicaSet" then
        match getWorkload env .ReplicaSet claimRefNamespace controllerName st with
        | (none, st1) => .skip st1
        | (some replicaset, st1) =>
          match replicaset.OwnerReferences with
          | owner :: _ =>
            if owner.Kind = "" ∨ owner.Name = "" then .skip st1
            else scaleDown env .Deployment claimRefNamespace owner.Name st1
          | [] =>
            match updateWorkload env .ReplicaSet claimRefNamespace
                { replicaset with Replicas := some 0 } st1 with
            | (false, st2) => .skip st2
            | (true, st2) =>
              .proceed (st2.defer
                (.restoreReplicas .ReplicaSet claimRefNamespace controllerName
                  replicaset.Replicas))
      else if controllerKind = "Deployment" then
        scaleDown env .Deployment claimRefNamespace controllerName st
      else .proceed st
    match switched with
    | .proceed st1 => .proceed { st1 with controllerRefs := key :: st1.controllerRefs }
    | other => other

/-- Lines 159-175: one volume of one pod. -/
def pauseVolume (simpleFold : Char → Char) (env : Nat → Reply) (claimRefNamespace claimRefName : String) (pod : Pod)
    (volume : Volume) (st : State) : Flow :=
  match volume.PersistentVolumeClaim with
  | none => .skip st
  | some claimName =>
    if !equalFold simpleFold claimName claimRefName then .skip st
    else
      match pod.OwnerReferences with
      | [] => .skip st
      | owner :: _ =>
        if owner.Kind = "" ∨ owner.Name = "" then .skip st
        else pauseController env claimRefNamespace owner.Kind owner.Name st

/-- Lines 151-351: list the pods of the claim's namespace and pause the controllers of
those that mount the claim. -/
def pauseConsumers (simpleFold : Char → Char) (env : Nat → Reply)
    (claimRefNamespace claimRefName : String) (st : State) : Flow :=
  match listPods env claimRefNamespace st with
  | (none, st1) => .skip st1
  | (some pods, st1) =>
    forRange (fun pod => forRange (pauseVolume simpleFold env claimRefNamespace claimRefName pod)
      pod.Volumes) pods st1

/-- Lines 132-149: make sure the volume is retained; the deferred delete of the old
volume is registered inside the branch that updates the policy. -/
def retain (env : Nat → Reply) (deletePVs : Bool) (pv : PersistentVolume) (st : State) :
    Flow :=
  if pv.PersistentVolumeReclaimPolicy ≠ "Retain" then
    match updatePV env { pv with PersistentVolumeReclaimPolicy := "Retain" } st with
    | (false, st1) => .skip st1
    | (true, st1) => if deletePVs then .proceed (st1.defer (.deletePV pv.Name)) else .proceed st1
  else .proceed st

/-- The storage capacity `pv.Spec.Capacity[corev1.ResourceStorage]`; a missing key gives
the zero quantity. -/
def capacityStorage (pv : PersistentVolume) : Quantity :=
  (mapGet pv.Capacity "storage").getD { s := "" }

/-- Lines 355-391: the new volume. -/
def newPV (newStorageClass skuName : String) (pv : PersistentVolume)
    (claimRefNamespace claimRefName azureDiskDiskURI : String) : PersistentVolume :=
  { Name := pv.Name ++ "-csi"
    Annotations := [("pv.kubernetes.io/provisioned-by", "disk.csi.azure.com")]
    AccessModes := ["ReadWriteOnce"]
    Capacity := [("storage", capacityStorage pv)]
    AzureDisk := none
    CSI := some
      { Driver := "disk.csi.azure.com"
        VolumeHandle := azureDiskDiskURI
        VolumeAttributes :=
          [("csi.storage.k8s.io/pv/name", pv.Name ++ "-csi"),
           ("csi.storage.k8s.io/pvc/name", claimRefName),
           ("csi.storage.k8s.io/pvc/namespace", claimRefNamespace),
           ("requestedsizegib", (capacityStorage pv).String),
           ("skuname", skuName)] }
    ClaimRef := some
      { Kind := "PersistentVolumeClaim", Name := claimRefName, Namespace := claimRefNamespace,
        APIVersion := "v1" }
    PersistentVolumeReclaimPolicy := pv.PersistentVolumeReclaimPolicy
    StorageClassName := newStorageClass }

/-- Lines 437-456: the replacement claim. -/
def newPVC (newStorageClass : String) (pv : PersistentVolume)
    (claimRefNamespace claimRefName : String) (existingPVC : PersistentVolumeClaim) :
    PersistentVolumeClaim :=
  { Name := claimRefName
    Namespace := claimRefNamespace
    Labels := existingPVC.Labels
    Annotations := mapDelete existingPVC.Annotations "pv.kubernetes.io/bind-completed"
    AccessModes := existingPVC.AccessModes
    Requests := [("storage", capacityStorage pv)]
    StorageClassName := some newStorageClass
    VolumeName := pv.Name ++ "-csi"
    DeletionPending := false }

/-- Lines 483-497: poll the old claim until it is not found.  Any other error and a
claim that is still there both poll again; `fuel` bounds the number of polls the model
follows, and `none` is a poll that has not ended by then. -/
def waitForDeletion (env : Nat → Reply) (claimRefNamespace claimRefName : String) :
    Nat → State → Option State
  | 0, _ => none
  | fuel + 1, st =>
    match getPVC env claimRefNamespace claimRefName st with
    | (.error .notFound, st1) => some st1
    | (.error .other, st1) => waitForDeletion env claimRefNamespace claimRefName fuel st1
    | (.ok _, st1) => waitForDeletion env claimRefNamespace claimRefName fuel st1

/-- Lines 353-506: create the new volume and swap the claim.  `json.Marshal` of a
string and of a claim cannot fail, so those error branches are left out. -/
def cutover (flags : Flags) (env : Nat → Reply) (fuel : Nat) (skuName : String)
    (pv : PersistentVolume) (claimRefNamespace claimRefName azureDiskDiskURI : String)
    (st : State) : Flow :=
  match writeFile env (flags.clustername ++ "/" ++ pv.Name ++ ".json") (.name pv.Name) st with
  | (false, st1) => .skip st1
  | (true, st1) =>
  match createPV env
      (newPV flags.newStorageClass skuName pv claimRefNamespace claimRefName azureDiskDiskURI)
      st1 with
  | (false, st2) => .skip st2
  | (true, st2) =>
  match getPVC env claimRefNamespace claimRefName st2 with
  | (.error _, st3) => .skip st3
  | (.ok existingPVC, st3) =>
  match writeFile env
      (flags.clustername ++ "/original-pvc." ++ claimRefName ++ "." ++ claimRefNamespace ++
        ".json")
      (.claim existingPVC) st3 with
  | (false, st4) => .skip st4
  | (true, st4) =>
  match writeFile env
      (flags.clustername ++ "/new-pvc." ++ claimRefName ++ "." ++ claimRefNamespace ++ ".json")
      (.claim (newPVC flags.newStorageClass pv claimRefNamespace claimRefName existingPVC))
      st4 with
  | (false, st5) => .skip st5
  | (true, st5) =>
  match deletePVC env claimRefNamespace claimRefName st5 with
  | (false, st6) => .skip st6
  | (true, st6) =>
  match waitForDeletion env claimRefNamespace claimRefName fuel st6 with
  | none => .stuck st6
  | some st7 =>
  match createPVC env claimRefNamespace
      (newPVC flags.newStorageClass pv claimRefNamespace claimRefName existingPVC) st7 with
  | (false, st8) => .skip st8
  | (true, st8) => .proceed st8

/-- Line 110: the volume carries the provenance annotation of the source
provisioner. -/
def provisioned (pv : PersistentVolume) : Bool :=
  mapGet pv.Annotations "volumehelper.VolumeDynamicallyCreatedByKey" ==
    some "azure-disk-dynamic-provisioner"

/-- Line 127: one of the required fields is empty. -/
def fieldEmpty (pv : PersistentVolume) (claimRefNamespace claimRefName azureDiskDiskURI : String) :
    Bool :=
  pv.Name == "" || claimRefNamespace == "" || claimRefName == "" ||
    pv.PersistentVolumeReclaimPolicy == "" || pv.StorageClassName == "" ||
    (capacityStorage pv).String == "" || azureDiskDiskURI == ""

/-- Lines 132-506: the loop body after the checks of lines 110-130. -/
def migrate (simpleFold : Char → Char) (flags : Flags) (env : Nat → Reply) (fuel : Nat) (skuName : String)
    (pv : PersistentVolume) (claimRefNamespace claimRefName azureDiskDiskURI : String)
    (st : State) : Flow :=
  match retain env flags.deletePVs pv st with
  | .proceed st1 =>
    match pauseConsumers simpleFold env claimRefNamespace claimRefName st1 with
    | .proceed st2 =>
      cutover flags env fuel skuName pv claimRefNamespace claimRefName azureDiskDiskURI st2
    | other => other
  | other => other

/-- Lines 108-507: the body of the loop over the listed volumes.  The claim reference
and the Azure disk source are pointers that lines 115-120 dereference before any
check. -/
def processPV (simpleFold : Char → Char) (flags : Flags) (env : Nat → Reply) (fuel : Nat) (skuName : String)
    (pv : PersistentVolume) (st : State) : Flow :=
  if !provisioned pv then .skip st
  else
    match pv.ClaimRef with
    | none => .panicked st
    | some claimRef =>
      match pv.AzureDisk with
      | none => .panicked st
      | some azureDisk =>
        if !equalFold simpleFold pv.StorageClassName flags.existingStorageClass then .skip st
        else if fieldEmpty pv claimRef.Namespace claimRef.Name azureDisk.DataDiskURI then
          .skip st
        else
          migrate simpleFold flags env fuel skuName pv claimRef.Namespace claimRef.Name
            azureDisk.DataDiskURI st

/-- A deferred closure, run at the end: lines 143-147, 199-211 and the three replica
restorations.  A failed `Get` is only logged; the closure goes on with the empty
object. -/
def runDeferred (env : Nat → Reply) : Deferred → State → State
  | .deletePV pvName, st => (deletePV env pvName st).2
  | .restoreDaemonSet ns name, st =>
    match getWorkload env .DaemonSet ns name st with
    | (r, st1) =>
      let daemonset := r.getD emptyWorkload
      (updateWorkload env .DaemonSet ns
        { daemonset with
          NodeSelector := daemonset.NodeSelector.map (fun m => mapDelete m "storage-migration") }
        st1).2
  | .restoreReplicas kind ns name originalReplicas, st =>
    match getWorkload env kind ns name st with
    | (r, st1) =>
      (updateWorkload env kind ns { r.getD emptyWorkload with Replicas := originalReplicas }
        st1).2

/-- Run the deferred calls, most recently deferred first. -/
def runDefers (env : Nat → Reply) : List Deferred → State → State
  | [], st => st
  | d :: ds, st =>
    runDefers env ds (runDeferred env d { st with trace := st.trace ++ [Event.ran d] })

/-- Leaving `migrateStorage`: the stack of deferred calls is unwound. -/
def unwind (env : Nat → Reply) (st : State) : State :=
  runDefers env st.deferred { st with deferred := [] }

/-- How the process ends: `os.Exit(1)` before any request, a panic, a deletion poll that
never ends, or a return to `main`. -/
inductive Exit where
  | exited (st : State)
  | panicked (st : State)
  | stuck (st : State)
  | done (st : State)
deriving DecidableEq, Repr

/-- The state the process ends in. -/
def Exit.state : Exit → State
  | .exited st => st
  | .panicked st => st
  | .stuck st => st
  | .done st => st

/-- Lines 108-507: the loop over the listed volumes. -/
def volumeLoop (simpleFold : Char → Char) (flags : Flags) (env : Nat → Reply) (fuel : Nat) (skuName : String)
    (pvs : List PersistentVolume) (st : State) : Flow :=
  forRange (processPV simpleFold flags env fuel skuName) pvs st

/-- The state `migrateStorage` starts in: nothing logged, no controller seen, nothing
deferred. -/
def initial (w : World) : State :=
  { world := w, trace := [], controllerRefs := [], deferred := [] }

/-- The function `migrateStorage`, lines 32-508. -/
def migrateStorage (simpleFold : Char → Char) (flags : Flags) (env : Nat → Reply) (fuel : Nat)
    (w : World) : Exit :=
  let st := initial w
  if flags.existingStorageClass = "" ∨ flags.newStorageClass = "" ∨ flags.clustername = "" then
    .exited st
  else if !flags.kubeconfigExists then .exited st
  else if !flags.kubeconfigValid then .panicked st
  else
    match mkdir env flags.clustername st with
    | (false, st1) => .panicked st1
    | (true, st1) =>
      match getStorageClass env flags.newStorageClass st1 with
      | (none, st2) => .panicked st2
      | (some newStorageClassObj, st2) =>
        let skuName := (mapGet newStorageClassObj.Parameters "skuname").getD ""
        if skuName = "" then .panicked st2
        else
          match listPVs env st2 with
          | (none, st3) => .panicked st3
          | (some pvs, st3) =>
            match volumeLoop simpleFold flags env fuel skuName pvs st3 with
            | .proceed st4 => .done (unwind env st4)
            | .skip st4 => .done (unwind env st4)
            | .panicked st4 => .panicked (unwind env st4)
            | .stuck st4 => .stuck st4

/-! ## Specification vocabulary and scenarios -/

/-- The deferred calls a stretch of the log registers, in order. -/
def registrations : List Event → List Deferred
  | [] => []
  | .registered d :: evs => d :: registrations evs
  | _ :: evs => registrations evs

/-- The deferred calls a stretch of the log starts, in order. -/
def executions : List Event → List Deferred
  | [] => []
  | .ran d :: evs => d :: executions evs
  | _ :: evs => executions evs

/-- What a piece of the program logged: the entries of `st1` after those of `st`. -/
def newEvents (st st1 : State) : List Event :=
  st1.trace.drop st.trace.length

/-- From `st` to `st1` the log grows by entries that all satisfy `P`, and the stack of
deferred calls grows by exactly the registrations logged, the last one on top. -/
def Grows (P : Event → Prop) (st st1 : State) : Prop :=
  ∃ evs, st1.trace = st.trace ++ evs ∧ (∀ e ∈ evs, P e) ∧
    st1.deferred = (registrations evs).reverse ++ st.deferred

/-- The entries the pause step can log: reads and updates of controllers, the pod
listing, and registrations of restorations. -/
def PauseEvent : Event → Prop
  | .call (.listPods _) _ => True
  | .call (.getWorkload _ _ _) _ => True
  | .call (.updateWorkload _ _ _) _ => True
  | .registered (.restoreDaemonSet _ _) => True
  | .registered (.restoreReplicas _ _ _ _) => True
  | _ => False

/-- The volume with its reclaim policy set to Retain, as line 135 sends it. -/
def retained (pv : PersistentVolume) : PersistentVolume :=
  { pv with PersistentVolumeReclaimPolicy := "Retain" }

/-- The entries the retain step can log. -/
def RetainEvent (flags : Flags) (pv : PersistentVolume) : Event → Prop
  | .call (.updatePV p) _ => p = retained pv ∧ pv.PersistentVolumeReclaimPolicy ≠ "Retain"
  | .registered (.deletePV n) =>
    n = pv.Name ∧ flags.deletePVs = true ∧ pv.PersistentVolumeReclaimPolicy ≠ "Retain"
  | _ => False

/-- The entries the cutover can log. -/
def CutoverEvent (flags : Flags) (skuName : String) (pv : PersistentVolume) : Event → Prop
  | .call (.writeFile _ _) _ => True
  | .call (.createPV p) _ => ∃ ns name uri, p = newPV flags.newStorageClass skuName pv ns name uri
  | .call (.getPVC _ _) _ => True
  | .call (.deletePVC _ _) _ => True
  | .call (.createPVC _ c) _ => ∃ ns name old, c = newPVC flags.newStorageClass pv ns name old
  | _ => False

/-- A volume that passes the checks of lines 110-130: it carries the provenance
annotation, its claim reference and Azure disk source are set, its class matches the
source class and none of the required fields is empty. -/
def eligible (simpleFold : Char → Char) (flags : Flags) (pv : PersistentVolume) : Bool :=
  provisioned pv &&
    match pv.ClaimRef, pv.AzureDisk with
    | some claimRef, some azureDisk =>
      equalFold simpleFold pv.StorageClassName flags.existingStorageClass &&
        !fieldEmpty pv claimRef.Namespace claimRef.Name azureDisk.DataDiskURI
    | _, _ => false

/-- The entries one loop iteration can log. -/
def VolumeEvent (flags : Flags) (skuName : String) (pv : PersistentVolume) (e : Event) : Prop :=
  RetainEvent flags pv e ∨ PauseEvent e ∨ CutoverEvent flags skuName pv e

/-- A log entry that is a request. -/
def IsCall : Event → Prop
  | .call _ _ => True
  | _ => False

/-- A deferred call that restores a paused controller (the other kind deletes an old
volume). -/
def Deferred.isRestoration : Deferred → Bool
  | .deletePV _ => false
  | .restoreDaemonSet _ _ => true
  | .restoreReplicas _ _ _ _ => true

/-- A volume that the checks of lines 110-130 pass over with `continue`. -/
def skipped (simpleFold : Char → Char) (flags : Flags) (pv : PersistentVolume) : Bool :=
  !provisioned pv ||
    match pv.ClaimRef, pv.AzureDisk with
    | some claimRef, some azureDisk =>
      !equalFold simpleFold pv.StorageClassName flags.existingStorageClass ||
        fieldEmpty pv claimRef.Namespace claimRef.Name azureDisk.DataDiskURI
    | _, _ => false

/-- The requests before the loop over the volumes. -/
def PreflightEvent (flags : Flags) : Event → Prop
  | .call (.mkdir d) _ => d = flags.clustername
  | .call (.getStorageClass n) _ => n = flags.newStorageClass
  | .call .listPVs _ => True
  | _ => False

/-- The folding table in which every rune is alone in its orbit, for the statements
that need a closed input.  The scenarios below use ASCII strings only, and on ASCII
strings `strings.EqualFold` does not consult the table (`equalFold_ascii`): their runs
are the same with every table (`scenario_runs_any_table`), the one of the Go library
included. -/
def identityFold : Char → Char := fun r => r

/-- No request fails and a deleted claim is gone at the first poll. -/
def noFaults : Nat → Reply := fun _ => .ok

/-- The flags of the scenarios: from class managed-premium to class managed-csi. -/
def demoFlags : Flags :=
  { existingStorageClass := "managed-premium", newStorageClass := "managed-csi",
    clustername := "cluster", deletePVs := false, kubeconfigExists := true,
    kubeconfigValid := true }

/-- A source volume bound to the claim `data-<n>` of namespace app. -/
def sourcePV (n policy : String) (capacity : List (String × Quantity))
    (claimRef : Option ObjectReference) : PersistentVolume :=
  { Name := "pv-" ++ n
    Annotations :=
      [("volumehelper.VolumeDynamicallyCreatedByKey", "azure-disk-dynamic-provisioner")]
    AccessModes := ["ReadWriteOnce"]
    Capacity := capacity
    AzureDisk := some { DataDiskURI := "disk-uri-" ++ n }
    CSI := none
    ClaimRef := claimRef
    PersistentVolumeReclaimPolicy := policy
    StorageClassName := "managed-premium" }

/-- The reference to the claim `data-<n>` of namespace app. -/
def claimRefTo (n : String) : Option ObjectReference :=
  some { Kind := "PersistentVolumeClaim", Name := "data-" ++ n, Namespace := "app",
         APIVersion := "v1" }

/-- A capacity of 10Gi. -/
def tenGi : List (String × Quantity) := [("storage", { s := "10Gi" })]

/-- The claim `data-<n>` of namespace app, bound to `pv-<n>`. -/
def sourcePVC (n : String) : PersistentVolumeClaim :=
  { Name := "data-" ++ n, Namespace := "app", Labels := [("app", "web")],
    Annotations := [("pv.kubernetes.io/bind-completed", "yes")],
    AccessModes := ["ReadWriteOnce"], Requests := tenGi,
    StorageClassName := some "managed-premium", VolumeName := "pv-" ++ n,
    DeletionPending := false }

/-- A pod of namespace app that mounts the claim `data-<n>`. -/
def podOf (name ownerKind ownerName n : String) : Pod :=
  { Name := name, Namespace := "app",
    OwnerReferences := [{ Kind := ownerKind, Name := ownerName }],
    Volumes := [{ Name := "data", PersistentVolumeClaim := some ("data-" ++ n) }] }

/-- A controller of namespace app. -/
def workload (name : String) (owners : List OwnerReference) (replicas : Option Int)
    (nodeSelector : Option (List (String × String))) : Workload :=
  { Name := name, Namespace := "app", OwnerReferences := owners, Replicas := replicas,
    NodeSelector := nodeSelector }

/-- A cluster with the target storage class and the given objects, and no files. -/
def demoWorld (pvs : List PersistentVolume) (pvcs : List PersistentVolumeClaim)
    (pods : List Pod) (workloads : List (Kind × Workload)) : World :=
  { storageClasses := [{ Name := "managed-csi", Parameters := [("skuname", "Premium_LRS")] }]
    pvs := pvs, pvcs := pvcs, pods := pods, workloads := workloads, files := [] }

/-- The end-to-end scenario of the specification: volume pv-1 (Retain, 10Gi) bound
to app/data-1, mounted by a pod of a ReplicaSet of Deployment web with 3 replicas. -/
def webWorld (policy : String) : World :=
  demoWorld [sourcePV "1" policy tenGi (claimRefTo "1")] [sourcePVC "1"]
    [podOf "web-a-1" "ReplicaSet" "web-a" "1"]
    [(.ReplicaSet, workload "web-a" [{ Kind := "Deployment", Name := "web" }] (some 3) none),
     (.Deployment, workload "web" [] (some 3) none)]

/-- Two volumes whose claims are mounted by pods of two ReplicaSets of the same
Deployment. -/
def twoReplicaSetsWorld : World :=
  demoWorld [sourcePV "1" "Retain" tenGi (claimRefTo "1"), sourcePV "2" "Retain" tenGi (claimRefTo "2")]
    [sourcePVC "1", sourcePVC "2"]
    [podOf "web-a-1" "ReplicaSet" "web-a" "1", podOf "web-b-1" "ReplicaSet" "web-b" "2"]
    [(.ReplicaSet, workload "web-a" [{ Kind := "Deployment", Name := "web" }] (some 3) none),
     (.ReplicaSet, workload "web-b" [{ Kind := "Deployment", Name := "web" }] (some 3) none),
     (.Deployment, workload "web" [] (some 3) none)]

/-- A DaemonSet without node selector owns the pod that mounts the claim. -/
def daemonSetWorld : World :=
  demoWorld [sourcePV "1" "Retain" tenGi (claimRefTo "1")] [sourcePVC "1"]
    [podOf "agent-x" "DaemonSet" "agent" "1"]
    [(.DaemonSet, workload "agent" [] none none)]

/-- An annotated volume without claim reference is listed before pv-1. -/
def unboundWorld : World :=
  demoWorld [sourcePV "0" "Retain" tenGi none, sourcePV "1" "Retain" tenGi (claimRefTo "1")]
    [sourcePVC "1"] [] []

/-- The volume pv-1 has no capacity entry. -/
def noCapacityWorld : World :=
  demoWorld [sourcePV "1" "Retain" [] (claimRefTo "1")] [sourcePVC "1"] [] []

/-- Every request fails. -/
def allFail : Nat → Reply := fun _ => .err

/-- The flags of the scenarios with delete-migrated set. -/
def deleteFlags : Flags := { demoFlags with deletePVs := true }

/-- Deployment web of namespace app with the given replica count. -/
def webAt (replicas : Option Int) : Workload := workload "web" [] replicas none

/-- A ReplicaSet of Deployment web with 3 replicas. -/
def webRS (name : String) : Workload :=
  workload name [{ Kind := "Deployment", Name := "web" }] (some 3) none

/-- The volume pv-1 of the scenarios, with the given reclaim policy. -/
def pv1 (policy : String) : PersistentVolume := sourcePV "1" policy tenGi (claimRefTo "1")

/-- The claim data-1 of the scenarios with a second annotation. -/
def annotatedPVC : PersistentVolumeClaim :=
  { sourcePVC "1" with
    Annotations :=
      [("pv.kubernetes.io/bind-completed", "yes"),
       ("volume.beta.kubernetes.io/storage-provisioner", "kubernetes.io/azure-disk")] }

/-- The scenario volume pv-1 bound to the claim with two annotations; no pods. -/
def annotatedWorld : World :=
  demoWorld [pv1 "Retain"] [annotatedPVC] [] []

/-- The entries the unwinding can log: the start of a deferred call, the delete of an
old volume, and the read and update of a controller. -/
def UnwindEvent : Event → Prop
  | .ran _ => True
  | .call (.deletePV _) _ => True
  | .call (.getWorkload _ _ _) _ => True
  | .call (.updateWorkload _ _ _) _ => True
  | _ => False

/-- The entries a run can log: those of the preflight, of the loop iterations and of
the unwinding. -/
def RunEvent (flags : Flags) (e : Event) : Prop :=
  PreflightEvent flags e ∨ (∃ skuName pv, VolumeEvent flags skuName pv e) ∨ UnwindEvent e

/-- The state in which line 416 reads the old claim, for a cutover that starts in `st`:
the volume manifest has been written (line 402) and the creation of the new volume
requested (line 409). -/
def claimReadState (flags : Flags) (env : Nat → Reply) (skuName : String)
    (pv : PersistentVolume) (claimRefNamespace claimRefName azureDiskDiskURI : String)
    (st : State) : State :=
  (createPV env
    (newPV flags.newStorageClass skuName pv claimRefNamespace claimRefName azureDiskDiskURI)
    (writeFile env (flags.clustername ++ "/" ++ pv.Name ++ ".json") (.name pv.Name) st).2).2

/-- The entries a cutover can log, with where each claim it sends comes from, `sr` being
the state in which the cutover reads the old claim: a claim written to a file is the
claim that read returned or its replacement (lines 439-456), and a claim sent for
creation is the replacement, sent to the namespace of the claim reference. -/
def ClaimEvent (flags : Flags) (env : Nat → Reply) (pv : PersistentVolume)
    (claimRefNamespace claimRefName : String) (sr : State) : Event → Prop
  | .call (.writeFile _ (.name _)) _ => True
  | .call (.writeFile _ (.claim c)) _ =>
    ∃ old s, getPVC env claimRefNamespace claimRefName sr = (.ok old, s) ∧
      (c = old ∨ c = newPVC flags.newStorageClass pv claimRefNamespace claimRefName old)
  | .call (.createPV _) _ => True
  | .call (.getPVC _ _) _ => True
  | .call (.deletePVC _ _) _ => True
  | .call (.createPVC ns c) _ =>
    ns = claimRefNamespace ∧
      ∃ old s, getPVC env claimRefNamespace claimRefName sr = (.ok old, s) ∧
        c = newPVC flags.newStorageClass pv claimRefNamespace claimRefName old
  | _ => False

/-- The entries an iteration can log, with where each claim it sends comes from: the
retain and pause steps send no claim, and the claims of the cutover come from the read
made after the retain step fell through to state `s1` and the pause step to `s2`. -/
def IterationEvent (simpleFold : Char → Char) (flags : Flags) (env : Nat → Reply)
    (skuName : String) (pv : PersistentVolume) (st : State) (e : Event) : Prop :=
  RetainEvent flags pv e ∨ PauseEvent e ∨
    ∃ claimRef azureDisk s1 s2, pv.ClaimRef = some claimRef ∧ pv.AzureDisk = some azureDisk ∧
      retain env flags.deletePVs pv st = .proceed s1 ∧
      pauseConsumers simpleFold env claimRef.Namespace claimRef.Name s1 = .proceed s2 ∧
      ClaimEvent flags env pv claimRef.Namespace claimRef.Name
        (claimReadState flags env skuName pv claimRef.Namespace claimRef.Name
          azureDisk.DataDiskURI s2) e

/-! ## Theorems -/

/-- A pair of ASCII runes is compared without the folding table. -/
theorem equalFoldRune_ascii (f g : Char → Char) (a b : Char) (ha : a.toNat < 128)
    (hb : b.toNat < 128) : equalFoldRune f a b = equalFoldRune g a b := by
  unfold equalFoldRune
  split
  · rfl
  · simp only
    have : (if a < b then b else a).toNat < 128 := by split <;> assumption
    rw [if_pos this, if_pos this]

/-- On ASCII strings `strings.EqualFold` does not depend on the folding table. -/
theorem equalFold_ascii (f g : Char → Char) (s t : String)
    (hs : ∀ c ∈ s.data, c.toNat < 128) (ht : ∀ c ∈ t.data, c.toNat < 128) :
    equalFold f s t = equalFold g s t := by
  unfold equalFold
  generalize s.data = xs at hs
  generalize t.data = ys at ht
  induction xs generalizing ys with
  | nil => cases ys <;> rfl
  | cons a xs ih =>
    cases ys with
    | nil => rfl
    | cons b ys =>
      simp only [equalFoldRunes]
      rw [equalFoldRune_ascii f g a b (hs a (List.mem_cons_self _ _))
          (ht b (List.mem_cons_self _ _)),
        ih (fun c hc => hs c (List.mem_cons_of_mem _ hc)) ys
          (fun c hc => ht c (List.mem_cons_of_mem _ hc))]

theorem registrations_append (a b : List Event) :
    registrations (a ++ b) = registrations a ++ registrations b := by
  induction a with
  | nil => rfl
  | cons e a ih => cases e <;> simp [registrations, ih]

theorem executions_append (a b : List Event) :
    executions (a ++ b) = executions a ++ executions b := by
  induction a with
  | nil => rfl
  | cons e a ih => cases e <;> simp [executions, ih]

theorem Grows.refl (P : Event → Prop) (st : State) : Grows P st st :=
  ⟨[], by simp, by simp, by simp [registrations]⟩

theorem Grows.trans {P : Event → Prop} {a b c : State} (h1 : Grows P a b) (h2 : Grows P b c) :
    Grows P a c := by
  obtain ⟨e1, t1, p1, d1⟩ := h1
  obtain ⟨e2, t2, p2, d2⟩ := h2
  refine ⟨e1 ++ e2, by rw [t2, t1, List.append_assoc], ?_, ?_⟩
  · intro e he
    rcases List.mem_append.1 he with h | h
    · exact p1 e h
    · exact p2 e h
  · rw [d2, d1, registrations_append]; simp

theorem Grows.mono {P Q : Event → Prop} {a b : State} (h : Grows P a b)
    (hPQ : ∀ e, P e → Q e) : Grows Q a b := by
  obtain ⟨e1, t1, p1, d1⟩ := h
  exact ⟨e1, t1, fun e he => hPQ e (p1 e he), d1⟩

theorem Grows.emit {P : Event → Prop} (st : State) (c : Call) (ok : Bool) (w : World)
    (h : P (.call c ok)) : Grows P st (st.emit c ok w) :=
  ⟨[.call c ok], rfl, by simpa using h, by simp [registrations, State.emit]⟩

theorem Grows.defer {P : Event → Prop} (st : State) (d : Deferred)
    (h : P (.registered d)) : Grows P st (st.defer d) :=
  ⟨[.registered d], rfl, by simpa using h, by simp [registrations, State.defer]⟩

theorem Grows.newEvents {P : Event → Prop} {a b : State} (h : Grows P a b) :
    ∀ e ∈ newEvents a b, P e := by
  obtain ⟨e1, t1, p1, _⟩ := h
  simpa [PVMigration.newEvents, t1] using p1

theorem mkdir_emit (env : Nat → Reply) (dir : String) (st : State) :
    ∃ ok w, (mkdir env dir st).2 = st.emit (.mkdir dir) ok w := by
  unfold mkdir; split <;> exact ⟨_, _, rfl⟩

theorem getStorageClass_emit (env : Nat → Reply) (name : String) (st : State) :
    ∃ ok w, (getStorageClass env name st).2 = st.emit (.getStorageClass name) ok w := by
  unfold getStorageClass; split
  · exact ⟨_, _, rfl⟩
  · split <;> exact ⟨_, _, rfl⟩

theorem listPVs_emit (env : Nat → Reply) (st : State) :
    ∃ ok w, (listPVs env st).2 = st.emit .listPVs ok w := by
  unfold listPVs; split <;> exact ⟨_, _, rfl⟩

theorem updatePV_emit (env : Nat → Reply) (pv : PersistentVolume) (st : State) :
    ∃ w, (updatePV env pv st).2 = st.emit (.updatePV pv) (updatePV env pv st).1 w := by
  unfold updatePV; split <;> exact ⟨_, rfl⟩

theorem createPV_emit (env : Nat → Reply) (pv : PersistentVolume) (st : State) :
    ∃ w, (createPV env pv st).2 = st.emit (.createPV pv) (createPV env pv st).1 w := by
  unfold createPV; split <;> exact ⟨_, rfl⟩

theorem deletePV_emit (env : Nat → Reply) (name : String) (st : State) :
    ∃ w, (deletePV env name st).2 = st.emit (.deletePV name) (deletePV env name st).1 w := by
  unfold deletePV; split <;> exact ⟨_, rfl⟩

theorem listPods_emit (env : Nat → Reply) (ns : String) (st : State) :
    ∃ ok w, (listPods env ns st).2 = st.emit (.listPods ns) ok w := by
  unfold listPods; split <;> exact ⟨_, _, rfl⟩

theorem getWorkload_emit (env : Nat → Reply) (kind : Kind) (ns name : String) (st : State) :
    ∃ ok w, (getWorkload env kind ns name st).2 = st.emit (.getWorkload kind ns name) ok w := by
  unfold getWorkload; split
  · exact ⟨_, _, rfl⟩
  · split <;> exact ⟨_, _, rfl⟩

theorem updateWorkload_emit (env : Nat → Reply) (kind : Kind) (ns : String) (obj : Workload)
    (st : State) :
    ∃ w, (updateWorkload env kind ns obj st).2 =
      st.emit (.updateWorkload kind ns obj) (updateWorkload env kind ns obj st).1 w := by
  unfold updateWorkload; split <;> exact ⟨_, rfl⟩

theorem getPVC_emit (env : Nat → Reply) (ns name : String) (st : State) :
    ∃ ok w, (getPVC env ns name st).2 = st.emit (.getPVC ns name) ok w := by
  unfold getPVC; split
  · exact ⟨_, _, rfl⟩
  · split
    · exact ⟨_, _, rfl⟩
    · split <;> exact ⟨_, _, rfl⟩

theorem deletePVC_emit (env : Nat → Reply) (ns name : String) (st : State) :
    ∃ w, (deletePVC env ns name st).2 =
      st.emit (.deletePVC ns name) (deletePVC env ns name st).1 w := by
  unfold deletePVC; split <;> exact ⟨_, rfl⟩

theorem createPVC_emit (env : Nat → Reply) (ns : String) (pvc : PersistentVolumeClaim)
    (st : State) :
    ∃ w, (createPVC env ns pvc st).2 =
      st.emit (.createPVC ns pvc) (createPVC env ns pvc st).1 w := by
  unfold createPVC; split <;> exact ⟨_, rfl⟩

theorem writeFile_emit (env : Nat → Reply) (path : String) (content : FileContent)
    (st : State) :
    ∃ w, (writeFile env path content st).2 =
      st.emit (.writeFile path content) (writeFile env path content st).1 w := by
  unfold writeFile; split <;> exact ⟨_, rfl⟩

theorem Grows.of_emit {P : Event → Prop} {st s1 : State} {c : Call}
    (hP : ∀ ok, P (.call c ok)) (h : ∃ ok w, s1 = st.emit c ok w) : Grows P st s1 := by
  obtain ⟨ok, w, rfl⟩ := h
  exact Grows.emit st c ok w (hP ok)

theorem getWorkload_grows {P : Event → Prop} {env : Nat → Reply} {kind : Kind}
    {ns name : String} {st st1 : State} {r : Option Workload}
    (h : getWorkload env kind ns name st = (r, st1))
    (hP : ∀ ok, P (.call (.getWorkload kind ns name) ok)) : Grows P st st1 :=
  Grows.of_emit hP (by have := getWorkload_emit env kind ns name st; rwa [h] at this)

theorem updateWorkload_grows {P : Event → Prop} {env : Nat → Reply} {kind : Kind}
    {ns : String} {obj : Workload} {st st1 : State} {b : Bool}
    (h : updateWorkload env kind ns obj st = (b, st1))
    (hP : P (.call (.updateWorkload kind ns obj) b)) : Grows P st st1 := by
  obtain ⟨w, hw⟩ := updateWorkload_emit env kind ns obj st
  rw [h] at hw; simp only at hw; subst hw; exact Grows.emit _ _ _ _ hP

theorem listPods_grows {P : Event → Prop} {env : Nat → Reply} {ns : String} {st st1 : State}
    {r : Option (List Pod)} (h : listPods env ns st = (r, st1))
    (hP : ∀ ok, P (.call (.listPods ns) ok)) : Grows P st st1 :=
  Grows.of_emit hP (by have := listPods_emit env ns st; rwa [h] at this)

theorem updatePV_grows {P : Event → Prop} {env : Nat → Reply} {pv : PersistentVolume}
    {st st1 : State} {b : Bool} (h : updatePV env pv st = (b, st1))
    (hP : P (.call (.updatePV pv) b)) : Grows P st st1 := by
  obtain ⟨w, hw⟩ := updatePV_emit env pv st
  rw [h] at hw; simp only at hw; subst hw; exact Grows.emit _ _ _ _ hP

theorem createPV_grows {P : Event → Prop} {env : Nat → Reply} {pv : PersistentVolume}
    {st st1 : State} {b : Bool} (h : createPV env pv st = (b, st1))
    (hP : P (.call (.createPV pv) b)) : Grows P st st1 := by
  obtain ⟨w, hw⟩ := createPV_emit env pv st
  rw [h] at hw; simp only at hw; subst hw; exact Grows.emit _ _ _ _ hP

theorem deletePV_grows {P : Event → Prop} {env : Nat → Reply} {name : String}
    {st st1 : State} {b : Bool} (h : deletePV env name st = (b, st1))
    (hP : P (.call (.deletePV name) b)) : Grows P st st1 := by
  obtain ⟨w, hw⟩ := deletePV_emit env name st
  rw [h] at hw; simp only at hw; subst hw; exact Grows.emit _ _ _ _ hP

theorem getPVC_grows {P : Event → Prop} {env : Nat → Reply} {ns name : String}
    {st st1 : State} {r : Except ApiError PersistentVolumeClaim}
    (h : getPVC env ns name st = (r, st1))
    (hP : ∀ ok, P (.call (.getPVC ns name) ok)) : Grows P st st1 :=
  Grows.of_emit hP (by have := getPVC_emit env ns name st; rwa [h] at this)

theorem deletePVC_grows {P : Event → Prop} {env : Nat → Reply} {ns name : String}
    {st st1 : State} {b : Bool} (h : deletePVC env ns name st = (b, st1))
    (hP : P (.call (.deletePVC ns name) b)) : Grows P st st1 := by
  obtain ⟨w, hw⟩ := deletePVC_emit env ns name st
  rw [h] at hw; simp only at hw; subst hw; exact Grows.emit _ _ _ _ hP

theorem createPVC_grows {P : Event → Prop} {env : Nat → Reply} {ns : String}
    {pvc : PersistentVolumeClaim} {st st1 : State} {b : Bool}
    (h : createPVC env ns pvc st = (b, st1))
    (hP : P (.call (.createPVC ns pvc) b)) : Grows P st st1 := by
  obtain ⟨w, hw⟩ := createPVC_emit env ns pvc st
  rw [h] at hw; simp only at hw; subst hw; exact Grows.emit _ _ _ _ hP

theorem writeFile_grows {P : Event → Prop} {env : Nat → Reply} {path : String}
    {content : FileContent} {st st1 : State} {b : Bool}
    (h : writeFile env path content st = (b, st1))
    (hP : P (.call (.writeFile path content) b)) : Grows P st st1 := by
  obtain ⟨w, hw⟩ := writeFile_emit env path content st
  rw [h] at hw; simp only at hw; subst hw; exact Grows.emit _ _ _ _ hP

theorem scaleDown_grows (env : Nat → Reply) (kind : Kind) (ns name : String) (st : State) :
    Grows PauseEvent st (scaleDown env kind ns name st).state := by
  unfold scaleDown
  split
  next st1 h => exact getWorkload_grows h (fun _ => trivial)
  next obj st1 h =>
    have g1 : Grows PauseEvent st st1 := getWorkload_grows h (fun _ => trivial)
    simp only
    split
    next st2 h2 => exact g1.trans (updateWorkload_grows h2 trivial)
    next st2 h2 =>
      exact (g1.trans (updateWorkload_grows h2 trivial)).trans (Grows.defer _ _ trivial)

theorem pauseController_grows (env : Nat → Reply) (ns kind name : String) (st : State) :
    Grows PauseEvent st (pauseController env ns kind name st).state := by
  unfold pauseController
  simp only
  split
  · exact Grows.refl _ _
  · have key : ∀ (f : Flow) (k : String), Grows PauseEvent st f.state →
        Grows PauseEvent st
          (match f with
          | .proceed st1 => Flow.proceed { st1 with controllerRefs := k :: st1.controllerRefs }
          | other => other).state := by
      intro f k hf
      cases f <;> exact hf
    apply key
    split
    · split
      next st1 h => exact getWorkload_grows h (fun _ => trivial)
      next ds st1 h =>
        have g1 : Grows PauseEvent st st1 := getWorkload_grows h (fun _ => trivial)
        split
        · exact g1
        · split
          next st2 h2 => exact g1.trans (updateWorkload_grows h2 trivial)
          next st2 h2 =>
            exact (g1.trans (updateWorkload_grows h2 trivial)).trans (Grows.defer _ _ trivial)
    · split
      · exact scaleDown_grows ..
      · split
        · split
          next st1 h => exact getWorkload_grows h (fun _ => trivial)
          next rs st1 h =>
            have g1 : Grows PauseEvent st st1 := getWorkload_grows h (fun _ => trivial)
            split
            · split
              · exact g1
              · exact g1.trans (scaleDown_grows ..)
            · split
              next st2 h2 => exact g1.trans (updateWorkload_grows h2 trivial)
              next st2 h2 =>
                exact (g1.trans (updateWorkload_grows h2 trivial)).trans
                  (Grows.defer _ _ trivial)
        · split
          · exact scaleDown_grows ..
          · exact Grows.refl _ _

theorem forRange_grows {α : Type} {P : Event → Prop} (body : α → State → Flow)
    (hbody : ∀ x st, Grows P st (body x st).state) (xs : List α) (st : State) :
    Grows P st (forRange body xs st).state := by
  induction xs generalizing st with
  | nil => exact Grows.refl _ _
  | cons x xs ih =>
    unfold forRange
    have hb := hbody x st
    cases h : body x st with
    | proceed st1 => rw [h] at hb; exact hb.trans (ih st1)
    | skip st1 => rw [h] at hb; exact hb.trans (ih st1)
    | panicked st1 => rw [h] at hb; exact hb
    | stuck st1 => rw [h] at hb; exact hb

theorem pauseVolume_grows (fold : Char → Char) (env : Nat → Reply) (ns name : String) (pod : Pod)
    (volume : Volume)
    (st : State) : Grows PauseEvent st (pauseVolume fold env ns name pod volume st).state := by
  unfold pauseVolume
  split
  · exact Grows.refl _ _
  · split
    · exact Grows.refl _ _
    · split
      · exact Grows.refl _ _
      · split
        · exact Grows.refl _ _
        · exact pauseController_grows ..

theorem pauseConsumers_grows (fold : Char → Char) (env : Nat → Reply) (ns name : String)
    (st : State) :
    Grows PauseEvent st (pauseConsumers fold env ns name st).state := by
  unfold pauseConsumers
  split
  next st1 h => exact listPods_grows h (fun _ => trivial)
  next pods st1 h =>
    exact (listPods_grows h (fun _ => trivial)).trans (forRange_grows _ (fun pod st =>
      forRange_grows _ (fun volume st => pauseVolume_grows fold env ns name pod volume st) _ st) _ _)

theorem retain_grows (env : Nat → Reply) (flags : Flags) (pv : PersistentVolume) (st : State) :
    Grows (RetainEvent flags pv) st (retain env flags.deletePVs pv st).state := by
  unfold retain
  split
  next hne =>
    split
    next st1 h => exact updatePV_grows h ⟨rfl, hne⟩
    next st1 h =>
      have g1 : Grows (RetainEvent flags pv) st st1 := updatePV_grows h ⟨rfl, hne⟩
      split
      next hd => exact g1.trans (Grows.defer _ _ ⟨rfl, hd, hne⟩)
      · exact g1
  · exact Grows.refl _ _

/-- When the retain step falls through, the volume was listed as Retain or the update
to Retain succeeded and is in the log. -/
theorem retain_proceed (env : Nat → Reply) (deletePVs : Bool) (pv : PersistentVolume)
    (st st1 : State) (h : retain env deletePVs pv st = .proceed st1) :
    pv.PersistentVolumeReclaimPolicy = "Retain" ∨
      Event.call (.updatePV (retained pv)) true ∈ newEvents st st1 := by
  unfold retain at h
  split at h
  next hne =>
    right
    split at h
    · cases h
    next s1 hu =>
      obtain ⟨w, hw⟩ := updatePV_emit env (retained pv) st
      have hu2 : updatePV env (retained pv) st = (true, s1) := hu
      rw [hu2] at hw
      simp only at hw
      subst hw
      split at h <;> cases h <;> simp [newEvents, State.emit, State.defer]
  next he =>
    left
    exact not_not.1 he

theorem waitForDeletion_grows {P : Event → Prop} (env : Nat → Reply) (ns name : String)
    (hP : ∀ ok, P (.call (.getPVC ns name) ok)) (fuel : Nat) (st st1 : State)
    (h : waitForDeletion env ns name fuel st = some st1) : Grows P st st1 := by
  induction fuel generalizing st with
  | zero => simp [waitForDeletion] at h
  | succ n ih =>
    unfold waitForDeletion at h
    split at h
    next s hg => cases h; exact getPVC_grows hg hP
    next s hg => exact (getPVC_grows hg hP).trans (ih s h)
    next c s hg => exact (getPVC_grows hg hP).trans (ih s h)

theorem cutover_grows (flags : Flags) (env : Nat → Reply) (fuel : Nat) (skuName : String)
    (pv : PersistentVolume) (ns name uri : String) (st : State) :
    Grows (CutoverEvent flags skuName pv) st
      (cutover flags env fuel skuName pv ns name uri st).state := by
  unfold cutover
  split
  next s1 h1 => exact writeFile_grows h1 trivial
  next s1 h1 =>
  have g1 : Grows (CutoverEvent flags skuName pv) st s1 := writeFile_grows h1 trivial
  split
  next s2 h2 => exact g1.trans (createPV_grows h2 ⟨_, _, _, rfl⟩)
  next s2 h2 =>
  have g2 := g1.trans (createPV_grows (P := CutoverEvent flags skuName pv) h2 ⟨_, _, _, rfl⟩)
  split
  next e s3 h3 => exact g2.trans (getPVC_grows h3 (fun _ => trivial))
  next existingPVC s3 h3 =>
  have g3 := g2.trans (getPVC_grows (P := CutoverEvent flags skuName pv) h3 (fun _ => trivial))
  split
  next s4 h4 => exact g3.trans (writeFile_grows h4 trivial)
  next s4 h4 =>
  have g4 := g3.trans (writeFile_grows (P := CutoverEvent flags skuName pv) h4 trivial)
  split
  next s5 h5 => exact g4.trans (writeFile_grows h5 trivial)
  next s5 h5 =>
  have g5 := g4.trans (writeFile_grows (P := CutoverEvent flags skuName pv) h5 trivial)
  split
  next s6 h6 => exact g5.trans (deletePVC_grows h6 trivial)
  next s6 h6 =>
  have g6 := g5.trans (deletePVC_grows (P := CutoverEvent flags skuName pv) h6 trivial)
  split
  next h7 => exact g6
  next s7 h7 =>
  have g7 := g6.trans (waitForDeletion_grows (P := CutoverEvent flags skuName pv) env ns name
    (fun _ => trivial) fuel s6 s7 h7)
  split
  next s8 h8 => exact g7.trans (createPVC_grows h8 ⟨_, _, _, rfl⟩)
  next s8 h8 => exact g7.trans (createPVC_grows h8 ⟨_, _, _, rfl⟩)

/-- The three stages of the loop body: the retain step, the pause step and the cutover
each log their own kind of entries, and the cutover logs something only after the
volume was seen as Retain or updated to Retain. -/
theorem migrate_stages (fold : Char → Char) (flags : Flags) (env : Nat → Reply) (fuel : Nat)
    (skuName : String)
    (pv : PersistentVolume) (ns name uri : String) (st : State) :
    ∃ s1 s2, Grows (RetainEvent flags pv) st s1 ∧ Grows PauseEvent s1 s2 ∧
      Grows (CutoverEvent flags skuName pv) s2
        (migrate fold flags env fuel skuName pv ns name uri st).state ∧
      ((migrate fold flags env fuel skuName pv ns name uri st).state.trace ≠ s2.trace →
        pv.PersistentVolumeReclaimPolicy = "Retain" ∨
          Event.call (.updatePV (retained pv)) true ∈ newEvents st s1) := by
  unfold migrate
  have gr := retain_grows env flags pv st
  have hr := retain_proceed env flags.deletePVs pv st
  split
  next s1 h1 =>
    rw [h1] at gr
    have gp := pauseConsumers_grows fold env ns name s1
    split
    next s2 h2 =>
      rw [h2] at gp
      exact ⟨s1, s2, gr, gp, cutover_grows .., fun _ => hr s1 h1⟩
    next other hother =>
      exact ⟨s1, _, gr, gp, Grows.refl _ _, fun h => absurd rfl h⟩
  next other hother =>
    exact ⟨_, _, gr, Grows.refl _ _, Grows.refl _ _, fun h => absurd rfl h⟩

theorem processPV_stages (fold : Char → Char) (flags : Flags) (env : Nat → Reply) (fuel : Nat)
    (skuName : String)
    (pv : PersistentVolume) (st : State) :
    ∃ s1 s2, Grows (RetainEvent flags pv) st s1 ∧ Grows PauseEvent s1 s2 ∧
      Grows (CutoverEvent flags skuName pv) s2 (processPV fold flags env fuel skuName pv st).state ∧
      ((processPV fold flags env fuel skuName pv st).state.trace ≠ s2.trace →
        pv.PersistentVolumeReclaimPolicy = "Retain" ∨
          Event.call (.updatePV (retained pv)) true ∈ newEvents st s1) := by
  have trivial_case : ∀ f : Flow, f.state = st →
      ∃ s1 s2, Grows (RetainEvent flags pv) st s1 ∧ Grows PauseEvent s1 s2 ∧
        Grows (CutoverEvent flags skuName pv) s2 f.state ∧
        (f.state.trace ≠ s2.trace →
          pv.PersistentVolumeReclaimPolicy = "Retain" ∨
            Event.call (.updatePV (retained pv)) true ∈ newEvents st s1) := by
    intro f hf
    exact ⟨st, st, Grows.refl _ _, Grows.refl _ _, hf ▸ Grows.refl _ _,
      fun h => absurd (by rw [hf]) h⟩
  unfold processPV
  split
  · exact trivial_case _ rfl
  · split
    · exact trivial_case _ rfl
    · split
      · exact trivial_case _ rfl
      · split
        · exact trivial_case _ rfl
        · split
          · exact trivial_case _ rfl
          · exact migrate_stages ..

theorem split_of_not_mem {α : Type} {a c pre post : List α} {x : α}
    (h : a ++ c = pre ++ x :: post) (hx : x ∉ a) : ∃ t, pre = a ++ t := by
  rcases List.append_eq_append_iff.1 h with ⟨t, h1, _⟩ | ⟨t, h1, h2⟩
  · exact ⟨t, h1⟩
  · cases t with
    | nil => exact ⟨[], by simpa using h1.symm⟩
    | cons y t =>
      simp only [List.cons_append, List.cons.injEq] at h2
      exact absurd (by rw [h1, h2.1]; simp) hx

theorem processPV_eligible (fold : Char → Char) (flags : Flags) (env : Nat → Reply) (fuel : Nat)
    (skuName : String)
    (pv : PersistentVolume) (st : State) (h : eligible fold flags pv = true) :
    ∃ claimRef azureDisk, pv.ClaimRef = some claimRef ∧ pv.AzureDisk = some azureDisk ∧
      processPV fold flags env fuel skuName pv st =
        migrate fold flags env fuel skuName pv claimRef.Namespace claimRef.Name
          azureDisk.DataDiskURI st := by
  unfold eligible at h
  cases hc : pv.ClaimRef with
  | none => simp [hc] at h
  | some claimRef =>
    cases ha : pv.AzureDisk with
    | none => simp [hc, ha] at h
    | some azureDisk =>
      simp only [hc, ha, Bool.and_eq_true, Bool.not_eq_true', Bool.not_eq_eq_eq_not,
        Bool.not_true] at h
      refine ⟨claimRef, azureDisk, rfl, rfl, ?_⟩
      unfold processPV
      simp [hc, ha, h.1, h.2.1, h.2.2]

/-- C1. For every eligible volume, a delete request for a claim is logged by its loop
iteration only after the volume was listed with reclaim policy Retain or after the
update setting it to Retain succeeded; and when that update fails the iteration ends
there: the only entry logged is the failed update, so no controller is paused, no volume
created, no file written and no claim deleted, and the world, the deferred calls and the
controller set are unchanged. -/
theorem C1_delete_claim_only_when_retained (fold : Char → Char) (flags : Flags)
    (env : Nat → Reply) (fuel : Nat)
    (skuName : String) (pv : PersistentVolume) (st : State)
    (helig : eligible fold flags pv = true) :
    (∀ pre post ns name ok,
      newEvents st (processPV fold flags env fuel skuName pv st).state =
          pre ++ Event.call (.deletePVC ns name) ok :: post →
        pv.PersistentVolumeReclaimPolicy = "Retain" ∨
          Event.call (.updatePV (retained pv)) true ∈ pre) ∧
    (pv.PersistentVolumeReclaimPolicy ≠ "Retain" →
      (updatePV env (retained pv) st).1 = false →
        processPV fold flags env fuel skuName pv st =
            .skip (st.emit (.updatePV (retained pv)) false st.world) ∧
          newEvents st (processPV fold flags env fuel skuName pv st).state =
            [Event.call (.updatePV (retained pv)) false]) := by
  constructor
  · intro pre post ns name ok hev
    obtain ⟨s1, s2, ⟨eR, tR, pR, _⟩, ⟨eP, tP, pP, _⟩, ⟨eC, tC, pC, _⟩, hret⟩ :=
      processPV_stages fold flags env fuel skuName pv st
    have hnew : newEvents st (processPV fold flags env fuel skuName pv st).state =
        (eR ++ eP) ++ eC := by
      simp [newEvents, tC, tP, tR]
    rw [hnew] at hev
    have hnot : Event.call (.deletePVC ns name) ok ∉ eR ++ eP := by
      intro hmem
      rcases List.mem_append.1 hmem with hm | hm
      · exact pR _ hm
      · exact pP _ hm
    obtain ⟨t, ht⟩ := split_of_not_mem hev hnot
    have hne : eC ≠ [] := by
      intro hnil
      have : Event.call (.deletePVC ns name) ok ∈ eR ++ eP := by
        have h2 := hev
        rw [hnil, List.append_nil] at h2
        rw [h2]; simp
      exact hnot this
    have htr : (processPV fold flags env fuel skuName pv st).state.trace ≠ s2.trace := by
      rw [tC]
      intro h
      exact hne (by simpa using h)
    rcases hret htr with h | h
    · exact Or.inl h
    · right
      have : newEvents st s1 = eR := by simp [newEvents, tR]
      rw [this] at h
      rw [ht]
      exact List.mem_append_left _ (List.mem_append_left _ h)
  · intro hne hfail
    obtain ⟨claimRef, azureDisk, _, _, hp⟩ := processPV_eligible fold flags env fuel skuName pv st helig
    obtain ⟨w, hw⟩ := updatePV_emit env (retained pv) st
    have hworld : (updatePV env (retained pv) st).2 =
        st.emit (.updatePV (retained pv)) false st.world := by
      unfold updatePV at hfail ⊢
      split
      · rfl
      · next hc => simp [hc] at hfail
    have hr : retain env flags.deletePVs pv st =
        .skip (st.emit (.updatePV (retained pv)) false st.world) := by
      unfold retain
      rw [if_pos hne]
      have hu : updatePV env { pv with PersistentVolumeReclaimPolicy := "Retain" } st =
          (false, st.emit (.updatePV (retained pv)) false st.world) := by
        rw [← hworld, ← hfail]; rfl
      rw [hu]
    rw [hp]; unfold migrate; rw [hr]
    exact ⟨rfl, by simp [newEvents, Flow.state, State.emit]⟩

theorem find_map_replace_same {α : Type} (p : α → Bool) (v : α) (hv : p v = true) (l : List α)
    (d : α) (h : l.find? p = some d) :
    (l.map (fun e => if p e then v else e)).find? p = some v := by
  induction l with
  | nil => simp at h
  | cons x xs ih =>
    by_cases hx : p x = true
    · simp [List.find?, hx, hv]
    · simp only [Bool.not_eq_true] at hx
      simp only [List.find?, hx] at h
      simp [List.find?, hx, ih h]

theorem find_map_replace_other {α : Type} (p q : α → Bool) (v : α) (hv : q v = false)
    (hpq : ∀ e, p e = true → q e = false) (l : List α) :
    (l.map (fun e => if p e then v else e)).find? q = l.find? q := by
  induction l with
  | nil => rfl
  | cons x xs ih =>
    by_cases hx : p x = true
    · simp [List.find?, hx, hv, hpq x hx, ih]
    · simp only [Bool.not_eq_true] at hx
      simp [List.find?, hx, ih]

theorem findWorkload_some {w : World} {kind : Kind} {ns name : String} {d : Workload}
    (h : findWorkload w kind ns name = some d) : d.Namespace = ns ∧ d.Name = name := by
  unfold findWorkload at h
  cases hf : w.workloads.find? (fun e => e.1 == kind && e.2.Namespace == ns && e.2.Name == name)
    with
  | none => simp [hf] at h
  | some e =>
    rw [hf] at h
    simp only [Option.map_some', Option.some.injEq] at h
    have := List.find?_some hf
    simp only [Bool.and_eq_true, beq_iff_eq] at this
    subst h
    exact ⟨this.1.2, this.2⟩

theorem getWorkload_ok {env : Nat → Reply} {kind : Kind} {ns name : String} {st : State}
    {d : Workload} (hf : env st.trace.length ≠ .err)
    (h : findWorkload st.world kind ns name = some d) :
    getWorkload env kind ns name st = (some d, st.emit (.getWorkload kind ns name) true st.world) := by
  unfold getWorkload faulty
  simp [hf, h]

theorem updateWorkload_ok (env : Nat → Reply) (kind : Kind) (ns : String) (obj d : Workload)
    (st : State) (hf : env st.trace.length ≠ .err) (hn : obj.Name ≠ "")
    (h : findWorkload st.world kind ns obj.Name = some d) :
    updateWorkload env kind ns obj st =
      (true, st.emit (.updateWorkload kind ns obj) true
        { st.world with
          workloads := st.world.workloads.map (fun e =>
            if e.1 == kind && e.2.Namespace == ns && e.2.Name == obj.Name then (kind, obj)
            else e) }) := by
  unfold updateWorkload faulty
  simp [hf, hn, h]

/-- After a successful update the object sent is the one stored under its name. -/
theorem findWorkload_updated (w : World) (kind : Kind) (ns : String) (obj d : Workload)
    (hns : obj.Namespace = ns) (h : findWorkload w kind ns obj.Name = some d) :
    findWorkload
      { w with
        workloads := w.workloads.map (fun e =>
          if e.1 == kind && e.2.Namespace == ns && e.2.Name == obj.Name then (kind, obj)
          else e) } kind ns obj.Name = some obj := by
  unfold findWorkload at h ⊢
  cases hf : w.workloads.find? (fun e => e.1 == kind && e.2.Namespace == ns && e.2.Name == obj.Name)
    with
  | none => simp [hf] at h
  | some e =>
    have := find_map_replace_same
      (fun e : Kind × Workload => e.1 == kind && e.2.Namespace == ns && e.2.Name == obj.Name)
      (kind, obj) (by simp [hns]) w.workloads e hf
    simp only at this ⊢
    rw [this]
    rfl

/-- An update of one kind of controller leaves the objects of another kind as stored. -/
theorem findWorkload_other_kind (w : World) (kind kind2 : Kind) (ns ns2 name2 : String)
    (obj : Workload) (hk : kind2 ≠ kind) :
    findWorkload
      { w with
        workloads := w.workloads.map (fun e =>
          if e.1 == kind && e.2.Namespace == ns && e.2.Name == obj.Name then (kind, obj)
          else e) } kind2 ns2 name2 = findWorkload w kind2 ns2 name2 := by
  unfold findWorkload
  have := find_map_replace_other
    (fun e : Kind × Workload => e.1 == kind && e.2.Namespace == ns && e.2.Name == obj.Name)
    (fun e : Kind × Workload => e.1 == kind2 && e.2.Namespace == ns2 && e.2.Name == name2)
    (kind, obj) (by simp [Ne.symm hk]) (by
      intro e he
      simp only [Bool.and_eq_true, beq_iff_eq] at he
      simp [he.1.1, Ne.symm hk]) w.workloads
  simp only at this ⊢
  rw [this]

/-- Scaling down with the object stored and no request failing. -/
theorem scaleDown_ok (env : Nat → Reply) (kind : Kind) (ns name : String) (st : State)
    (d : Workload) (h : findWorkload st.world kind ns name = some d)
    (h0 : env st.trace.length ≠ .err) (h1 : env (st.trace.length + 1) ≠ .err)
    (hn : name ≠ "") :
    scaleDown env kind ns name st =
      .proceed
        (((st.emit (.getWorkload kind ns name) true st.world).emit
            (.updateWorkload kind ns { d with Replicas := some 0 }) true
            { st.world with
              workloads := st.world.workloads.map (fun e =>
                if e.1 == kind && e.2.Namespace == ns && e.2.Name == d.Name then
                  (kind, { d with Replicas := some 0 })
                else e) }).defer
          (.restoreReplicas kind ns name d.Replicas)) := by
  obtain ⟨_, hname⟩ := findWorkload_some h
  unfold scaleDown
  rw [getWorkload_ok h0 h]
  simp only
  have hu := updateWorkload_ok env kind ns { d with Replicas := some 0 } d
    (st.emit (.getWorkload kind ns name) true st.world)
    (by simpa [State.emit] using h1) (by simpa [hname] using hn)
    (by simpa [State.emit, hname] using h)
  rw [hu]
  rfl

theorem restoreReplicas_ok {env : Nat → Reply} {kind : Kind} {ns name : String}
    {orig : Option Int} {s : State} {d : Workload}
    (h : findWorkload s.world kind ns name = some d) (hn : name ≠ "")
    (h0 : env s.trace.length ≠ .err) (h1 : env (s.trace.length + 1) ≠ .err) :
    findWorkload (runDeferred env (.restoreReplicas kind ns name orig) s).world kind ns name =
        some { d with Replicas := orig } ∧
      newEvents s (runDeferred env (.restoreReplicas kind ns name orig) s) =
        [Event.call (.getWorkload kind ns name) true,
         Event.call (.updateWorkload kind ns { d with Replicas := orig }) true] := by
  obtain ⟨hns, hname⟩ := findWorkload_some h
  have hu := updateWorkload_ok env kind ns { d with Replicas := orig } d
    (s.emit (.getWorkload kind ns name) true s.world)
    (by simpa [State.emit] using h1) (by simpa [hname] using hn)
    (by simpa [State.emit, hname] using h)
  have hrun : runDeferred env (.restoreReplicas kind ns name orig) s =
      (updateWorkload env kind ns { d with Replicas := orig }
        (s.emit (.getWorkload kind ns name) true s.world)).2 := by
    simp only [runDeferred, getWorkload_ok h0 h]
    rfl
  rw [hrun, hu]
  constructor
  · have := findWorkload_updated s.world kind ns { d with Replicas := orig } d hns
      (by simpa [hname] using h)
    simpa [State.emit, hname] using this
  · simp [newEvents, State.emit]

theorem Grows.trace_grows {P : Event → Prop} {a b : State} (h : Grows P a b) :
    a.trace <+: b.trace := by
  obtain ⟨e1, t1, _, _⟩ := h
  exact ⟨e1, t1.symm⟩

theorem newEvents_trans {a b c : State} (hab : a.trace <+: b.trace) (hbc : b.trace <+: c.trace) :
    newEvents a c = newEvents a b ++ newEvents b c := by
  obtain ⟨x, hx⟩ := hab
  obtain ⟨y, hy⟩ := hbc
  simp [newEvents, ← hy, ← hx]

theorem emit_mem_newEvents {a b : State} (h : a.trace <+: b.trace) (c : Call) (ok : Bool)
    (w : World) : Event.call c ok ∈ newEvents a (b.emit c ok w) := by
  obtain ⟨x, hx⟩ := h
  simp [newEvents, State.emit, ← hx]

theorem processPV_grows (fold : Char → Char) (flags : Flags) (env : Nat → Reply) (fuel : Nat)
    (skuName : String)
    (pv : PersistentVolume) (st : State) :
    Grows (VolumeEvent flags skuName pv) st (processPV fold flags env fuel skuName pv st).state := by
  obtain ⟨s1, s2, g1, g2, g3, _⟩ := processPV_stages fold flags env fuel skuName pv st
  exact ((g1.mono fun _ h => Or.inl h).trans (g2.mono fun _ h => Or.inr (Or.inl h))).trans
    (g3.mono fun _ h => Or.inr (Or.inr h))

/-- A cutover that runs to its end created the new volume and the replacement claim. -/
theorem cutover_proceed (flags : Flags) (env : Nat → Reply) (fuel : Nat) (skuName : String)
    (pv : PersistentVolume) (ns name uri : String) (st s : State)
    (h : cutover flags env fuel skuName pv ns name uri st = .proceed s) :
    ∃ old,
      Event.call (.createPV (newPV flags.newStorageClass skuName pv ns name uri)) true ∈
          newEvents st s ∧
        Event.call (.createPVC ns (newPVC flags.newStorageClass pv ns name old)) true ∈
          newEvents st s := by
  unfold cutover at h
  split at h
  · cases h
  next s1 h1 =>
  split at h
  · cases h
  next s2 h2 =>
  split at h
  · cases h
  next old s3 h3 =>
  split at h
  · cases h
  next s4 h4 =>
  split at h
  · cases h
  next s5 h5 =>
  split at h
  · cases h
  next s6 h6 =>
  split at h
  · cases h
  next s7 h7 =>
  split at h
  · cases h
  next s8 h8 =>
  cases h
  have g1 : Grows (fun _ => True) st s1 := writeFile_grows h1 trivial
  have g2 : Grows (fun _ => True) s1 s2 := createPV_grows h2 trivial
  have g7 : Grows (fun _ => True) s2 s7 :=
    ((((getPVC_grows h3 (fun _ => trivial)).trans (writeFile_grows h4 trivial)).trans
      (writeFile_grows h5 trivial)).trans (deletePVC_grows h6 trivial)).trans
      (waitForDeletion_grows env ns name (fun _ => trivial) fuel s6 s7 h7)
  have g8 : Grows (fun _ => True) s7 s := createPVC_grows h8 trivial
  refine ⟨old, ?_, ?_⟩
  · obtain ⟨w, hw⟩ := createPV_emit env (newPV flags.newStorageClass skuName pv ns name uri) s1
    rw [h2] at hw
    simp only at hw
    have hm := emit_mem_newEvents g1.trace_grows
      (.createPV (newPV flags.newStorageClass skuName pv ns name uri)) true w
    rw [← hw] at hm
    rw [newEvents_trans (g1.trans g2).trace_grows (g7.trans g8).trace_grows]
    exact List.mem_append_left _ hm
  · obtain ⟨w, hw⟩ := createPVC_emit env ns (newPVC flags.newStorageClass pv ns name old) s7
    rw [h8] at hw
    simp only at hw
    have hm := emit_mem_newEvents ((g1.trans g2).trans g7).trace_grows
      (.createPVC ns (newPVC flags.newStorageClass pv ns name old)) true w
    rw [← hw] at hm
    exact hm

theorem migrate_proceed (fold : Char → Char) (flags : Flags) (env : Nat → Reply) (fuel : Nat)
    (skuName : String)
    (pv : PersistentVolume) (ns name uri : String) (st s : State)
    (h : migrate fold flags env fuel skuName pv ns name uri st = .proceed s) :
    ∃ old,
      Event.call (.createPV (newPV flags.newStorageClass skuName pv ns name uri)) true ∈
          newEvents st s ∧
        Event.call (.createPVC ns (newPVC flags.newStorageClass pv ns name old)) true ∈
          newEvents st s := by
  unfold migrate at h
  have gr := retain_grows env flags pv st
  split at h
  next s1 h1 =>
    rw [h1] at gr
    have gp := pauseConsumers_grows fold env ns name s1
    split at h
    next s2 h2 =>
      rw [h2] at gp
      obtain ⟨old, ha, hb⟩ := cutover_proceed flags env fuel skuName pv ns name uri s2 s h
      have gc := cutover_grows flags env fuel skuName pv ns name uri s2
      rw [h] at gc
      have hpre : st.trace <+: s2.trace := gr.trace_grows.trans gp.trace_grows
      have hsuf : s2.trace <+: s.trace := gc.trace_grows
      rw [newEvents_trans hpre hsuf]
      exact ⟨old, List.mem_append_right _ ha, List.mem_append_right _ hb⟩
    next other hother => exact absurd h (hother s)
  next other hother => exact absurd h (hother s)

theorem calls_register_nothing (evs : List Event) (h : ∀ e ∈ evs, IsCall e) :
    registrations evs = [] ∧ executions evs = [] := by
  induction evs with
  | nil => exact ⟨rfl, rfl⟩
  | cons e evs ih =>
    have he := h e (List.mem_cons_self _ _)
    have ih2 := ih (fun x hx => h x (List.mem_cons_of_mem _ hx))
    cases e with
    | call c ok => simpa [registrations, executions] using ih2
    | registered d => exact absurd he (by simp [IsCall])
    | ran d => exact absurd he (by simp [IsCall])

theorem volume_events_run_nothing (flags : Flags) (evs : List Event)
    (h : ∀ e ∈ evs, ∃ skuName pv, VolumeEvent flags skuName pv e) : executions evs = [] := by
  induction evs with
  | nil => rfl
  | cons e evs ih =>
    obtain ⟨skuName, pv, he⟩ := h e (List.mem_cons_self _ _)
    have ih2 := ih (fun x hx => h x (List.mem_cons_of_mem _ hx))
    cases e with
    | call c ok => simpa [executions] using ih2
    | registered d => simpa [executions] using ih2
    | ran d =>
      rcases he with he | he | he
      · exact absurd he (by simp [RetainEvent])
      · exact absurd he (by simp [PauseEvent])
      · exact absurd he (by simp [CutoverEvent])

theorem runDeferred_grows (env : Nat → Reply) (d : Deferred) (st : State) :
    Grows IsCall st (runDeferred env d st) := by
  cases d with
  | deletePV pvName =>
    simp only [runDeferred]
    exact deletePV_grows (b := (deletePV env pvName st).1) rfl trivial
  | restoreDaemonSet ns name =>
    simp only [runDeferred]
    exact (getWorkload_grows (r := (getWorkload env .DaemonSet ns name st).1) rfl
      (fun _ => trivial)).trans (updateWorkload_grows rfl trivial)
  | restoreReplicas kind ns name orig =>
    simp only [runDeferred]
    exact (getWorkload_grows (r := (getWorkload env kind ns name st).1) rfl
      (fun _ => trivial)).trans (updateWorkload_grows rfl trivial)

/-- Unwinding logs, for each deferred call from the top of the stack down, its start and
then its requests; nothing is registered meanwhile. -/
theorem runDefers_trace (env : Nat → Reply) (ds : List Deferred) (st : State) :
    ∃ tail, (runDefers env ds st).trace = st.trace ++ tail ∧ executions tail = ds ∧
      registrations tail = [] := by
  induction ds generalizing st with
  | nil => exact ⟨[], by simp [runDefers], rfl, rfl⟩
  | cons d ds ih =>
    obtain ⟨evs, ht, hp, _⟩ := runDeferred_grows env d { st with trace := st.trace ++ [Event.ran d] }
    obtain ⟨tail, h1, h2, h3⟩ :=
      ih (runDeferred env d { st with trace := st.trace ++ [Event.ran d] })
    obtain ⟨hr, he⟩ := calls_register_nothing evs hp
    refine ⟨Event.ran d :: (evs ++ tail), ?_, ?_, ?_⟩
    · simp only [runDefers]
      rw [h1, ht]
      simp
    · simp [executions, executions_append, he, h2]
    · simp [registrations, registrations_append, hr, h3]

theorem forRange_never_skips {α : Type} (body : α → State → Flow) (xs : List α)
    (st s : State) : forRange body xs st ≠ .skip s := by
  induction xs generalizing st with
  | nil => simp [forRange]
  | cons x xs ih =>
    unfold forRange
    split
    · exact ih _
    · exact ih _
    · simp
    · simp

/-- The start of a run: three requests that change nothing and register nothing. -/
theorem preflight (env : Nat → Reply) (dir cls : String) (w : World)
    (b : Bool) (c : Option StorageClass) (pvs : Option (List PersistentVolume))
    (st1 st2 st3 : State) (h1 : mkdir env dir (initial w) = (b, st1))
    (h2 : getStorageClass env cls st1 = (c, st2)) (h3 : listPVs env st2 = (pvs, st3)) :
    Grows IsCall (initial w) st3 ∧ st3.world = w ∧ st3.controllerRefs = [] ∧
      (∀ l, pvs = some l → l = w.pvs) ∧
      (b = true → ∀ e ∈ st3.trace, e = .call (.mkdir dir) true ∨
        (∃ ok, e = .call (.getStorageClass cls) ok) ∨ ∃ ok, e = .call .listPVs ok) := by
  obtain ⟨ok1, w1, e1⟩ := mkdir_emit env dir (initial w)
  obtain ⟨ok2, w2, e2⟩ := getStorageClass_emit env cls st1
  obtain ⟨ok3, w3, e3⟩ := listPVs_emit env st2
  rw [h1] at e1; rw [h2] at e2; rw [h3] at e3
  simp only at e1 e2 e3
  have hw1 : st1.world = w ∧ (b = true → ok1 = true) := by
    unfold mkdir at h1
    split at h1 <;> cases h1 <;> simp_all [State.emit, initial]
  have hw2 : st2.world = st1.world := by
    unfold getStorageClass at h2
    split at h2
    · cases h2; rfl
    · split at h2 <;> cases h2 <;> rfl
  have hw3 : st3.world = st2.world ∧ ∀ l, pvs = some l → l = st2.world.pvs := by
    unfold listPVs at h3
    split at h3 <;> cases h3 <;> simp [State.emit]
  refine ⟨?_, ?_, ?_, ?_, ?_⟩
  · rw [e3, e2, e1]
    exact ((Grows.emit _ _ _ _ trivial).trans (Grows.emit _ _ _ _ trivial)).trans
      (Grows.emit _ _ _ _ trivial)
  · rw [hw3.1, hw2, hw1.1]
  · rw [e3, e2, e1]; rfl
  · intro l hl
    rw [hw3.2 l hl, hw2, hw1.1]
  · intro hb
    have := hw1.2 hb
    subst this
    rw [e3, e2, e1]
    intro e he
    simp only [State.emit, initial, List.nil_append, List.cons_append, List.mem_cons,
      List.mem_singleton, List.not_mem_nil, or_false] at he
    rcases he with rfl | rfl | rfl
    · exact Or.inl rfl
    · exact Or.inr (Or.inl ⟨_, rfl⟩)
    · exact Or.inr (Or.inr ⟨_, rfl⟩)

theorem volumeLoop_grows (fold : Char → Char) (flags : Flags) (env : Nat → Reply) (fuel : Nat)
    (skuName : String)
    (pvs : List PersistentVolume) (st : State) :
    Grows (fun e => ∃ skuName pv, VolumeEvent flags skuName pv e) st
      (volumeLoop fold flags env fuel skuName pvs st).state :=
  forRange_grows _ (fun pv s => (processPV_grows fold flags env fuel skuName pv s).mono
    (fun _ h => ⟨skuName, pv, h⟩)) pvs st

/-- C6. In a run that returns, the deferred calls are started in exactly the reverse of
the order in which they were registered, each once; so are the restorations among them.
The log of the run is the log up to the end of the loop over all listed volumes, in
which no deferred call is started, followed by the unwinding, in which none is
registered. -/
theorem C6_restorations_after_loop_in_reverse (fold : Char → Char) (flags : Flags)
    (env : Nat → Reply) (fuel : Nat)
    (w : World) (f : State) (h : migrateStorage fold flags env fuel w = .done f) :
    executions f.trace = (registrations f.trace).reverse ∧
    (executions f.trace).filter Deferred.isRestoration =
      ((registrations f.trace).filter Deferred.isRestoration).reverse ∧
    ∃ skuName st3 st4 tail, volumeLoop fold flags env fuel skuName w.pvs st3 = .proceed st4 ∧
      f.trace = st4.trace ++ tail ∧ executions st4.trace = [] ∧ registrations tail = [] ∧
      executions tail = st4.deferred := by
  have main : ∃ skuName st3 st4 tail, volumeLoop fold flags env fuel skuName w.pvs st3 = .proceed st4 ∧
      f.trace = st4.trace ++ tail ∧ executions st4.trace = [] ∧ registrations tail = [] ∧
      executions tail = st4.deferred ∧ st4.deferred = (registrations st4.trace).reverse := by
    unfold migrateStorage at h
    simp only at h
    split at h
    · cases h
    · split at h
      · cases h
      · split at h
        · cases h
        · split at h
          · cases h
          next st1 h1 =>
            split at h
            · cases h
            next sc st2 h2 =>
              split at h
              · cases h
              · split at h
                · cases h
                next pvs st3 h3 =>
                  obtain ⟨gpre, _, _, hpvs, _⟩ := preflight env _ _ w _ _ _ st1 st2 st3 h1 h2 h3
                  have hl := hpvs pvs rfl
                  subst hl
                  obtain ⟨e0, t0, p0, d0⟩ := gpre
                  obtain ⟨r0, x0⟩ := calls_register_nothing e0 p0
                  have gl := volumeLoop_grows fold flags env fuel
                    ((mapGet sc.Parameters "skuname").getD "") w.pvs st3
                  have fin : ∀ st4, (volumeLoop fold flags env fuel
                      ((mapGet sc.Parameters "skuname").getD "") w.pvs st3).state = st4 →
                      ∃ tail, (unwind env st4).trace = st4.trace ++ tail ∧
                        executions st4.trace = [] ∧ registrations tail = [] ∧
                        executions tail = st4.deferred ∧
                        st4.deferred = (registrations st4.trace).reverse := by
                    intro st4 hst4
                    rw [hst4] at gl
                    obtain ⟨e1, t1, p1, d1⟩ := gl
                    obtain ⟨tail, ht, hx, hr⟩ := runDefers_trace env st4.deferred
                      { st4 with deferred := [] }
                    refine ⟨tail, ht, ?_, hr, hx, ?_⟩
                    · rw [t1, t0, executions_append, executions_append, x0,
                        volume_events_run_nothing flags e1 p1]
                      rfl
                    · rw [d1, d0, t1, t0, registrations_append, registrations_append, r0]
                      simp [initial, registrations]
                  split at h
                  next st4 h4 =>
                    cases h
                    obtain ⟨tail, a, b, c, d, e⟩ := fin st4 (by rw [h4]; rfl)
                    exact ⟨_, st3, st4, tail, h4, a, b, c, d, e⟩
                  next st4 h4 => exact absurd h4 (forRange_never_skips _ _ _ _)
                  · cases h
                  · cases h
  obtain ⟨skuName, st3, st4, tail, hloop, ht, hx, hr, hd, hs⟩ := main
  have hexec : executions f.trace = (registrations f.trace).reverse := by
    rw [ht, executions_append, registrations_append, hx, hr, hd, hs]
    simp
  refine ⟨hexec, ?_, skuName, st3, st4, tail, hloop, ht, hx, hr, hd⟩
  rw [hexec, List.filter_reverse]

theorem processPV_skipped (fold : Char → Char) (flags : Flags) (env : Nat → Reply) (fuel : Nat)
    (skuName : String)
    (pv : PersistentVolume) (st : State) (h : skipped fold flags pv = true) :
    processPV fold flags env fuel skuName pv st = .skip st := by
  unfold processPV
  unfold skipped at h
  by_cases hp : provisioned pv = true
  · simp only [hp, Bool.not_true, Bool.false_or] at h
    cases hc : pv.ClaimRef with
    | none => simp [hc] at h
    | some claimRef =>
      cases ha : pv.AzureDisk with
      | none => simp [hc, ha] at h
      | some azureDisk =>
        simp only [hc, ha, Bool.or_eq_true, Bool.not_eq_true'] at h
        rcases h with h | h
        · simp [hp, h]
        · simp [hp, h]
  · simp [hp]

theorem skipped_newPV (fold : Char → Char) (flags : Flags) (cls skuName : String)
    (old : PersistentVolume)
    (ns name uri : String) : skipped fold flags (newPV cls skuName old ns name uri) = true := by
  have : provisioned (newPV cls skuName old ns name uri) = false := rfl
  simp [skipped, this]

theorem volumeLoop_skipped (fold : Char → Char) (flags : Flags) (env : Nat → Reply) (fuel : Nat)
    (skuName : String)
    (pvs : List PersistentVolume) (st : State) (h : ∀ pv ∈ pvs, skipped fold flags pv = true) :
    volumeLoop fold flags env fuel skuName pvs st = .proceed st := by
  unfold volumeLoop
  induction pvs with
  | nil => rfl
  | cons pv pvs ih =>
    unfold forRange
    rw [processPV_skipped fold flags env fuel skuName pv st (h pv (List.mem_cons_self _ _))]
    exact ih (fun x hx => h x (List.mem_cons_of_mem _ hx))

theorem mkdir_step (flags : Flags) (env : Nat → Reply) (st st1 : State) (b : Bool)
    (h : mkdir env flags.clustername st = (b, st1)) :
    Grows (PreflightEvent flags) st st1 ∧ st1.world = st.world := by
  unfold mkdir at h
  split at h <;> cases h <;> exact ⟨Grows.emit _ _ _ _ rfl, rfl⟩

theorem getStorageClass_step (flags : Flags) (env : Nat → Reply) (st st1 : State)
    (r : Option StorageClass) (h : getStorageClass env flags.newStorageClass st = (r, st1)) :
    Grows (PreflightEvent flags) st st1 ∧ st1.world = st.world := by
  unfold getStorageClass at h
  split at h
  · cases h; exact ⟨Grows.emit _ _ _ _ rfl, rfl⟩
  · split at h <;> cases h <;> exact ⟨Grows.emit _ _ _ _ rfl, rfl⟩

theorem listPVs_step (flags : Flags) (env : Nat → Reply) (st st1 : State)
    (r : Option (List PersistentVolume)) (h : listPVs env st = (r, st1)) :
    Grows (PreflightEvent flags) st st1 ∧ st1.world = st.world ∧
      ∀ l, r = some l → l = st.world.pvs := by
  unfold listPVs at h
  split at h <;> cases h <;> exact ⟨Grows.emit _ _ _ _ trivial, rfl, by simp⟩

theorem preflight_only {flags : Flags} {w : World} {st : State}
    (g : Grows (PreflightEvent flags) (initial w) st) :
    (∀ e ∈ st.trace, PreflightEvent flags e) ∧ st.deferred = [] := by
  obtain ⟨evs, ht, hp, hd⟩ := g
  have hreg : registrations evs = [] := by
    clear ht hd
    induction evs with
    | nil => rfl
    | cons e evs ih =>
      have he := hp e (List.mem_cons_self _ _)
      have ih2 := ih (fun x hx => hp x (List.mem_cons_of_mem _ hx))
      cases e with
      | call c ok => simpa [registrations] using ih2
      | registered d => exact absurd he (by simp [PreflightEvent])
      | ran d => exact absurd he (by simp [PreflightEvent])
  constructor
  · rw [ht]; simpa [initial] using hp
  · rw [hd, hreg]; rfl

theorem mapGet_mapDelete_same {β : Type} (m : List (String × β)) (k : String) :
    mapGet (mapDelete m k) k = none := by
  induction m with
  | nil => rfl
  | cons e m ih =>
    obtain ⟨a, b⟩ := e
    unfold mapGet mapDelete at ih ⊢
    by_cases h : a = k
    · rw [List.filter_cons_of_neg (by simp [h])]
      exact ih
    · have h2 : (k == a) = false := by simpa using fun h3 => h h3.symm
      rw [List.filter_cons_of_pos (by simp [h]), List.lookup_cons, h2]
      exact ih

theorem mapGet_mapDelete_other {β : Type} (m : List (String × β)) (k j : String) (h : j ≠ k) :
    mapGet (mapDelete m k) j = mapGet m j := by
  induction m with
  | nil => rfl
  | cons e m ih =>
    obtain ⟨a, b⟩ := e
    unfold mapGet mapDelete at ih ⊢
    by_cases ha : a = k
    · have h2 : (j == a) = false := by simpa [ha] using h
      rw [List.filter_cons_of_neg (by simp [ha]), List.lookup_cons, h2]
      exact ih
    · rw [List.filter_cons_of_pos (by simp [ha]), List.lookup_cons, List.lookup_cons, ih]

theorem mapGet_mapSet_same {β : Type} (m : List (String × β)) (k : String) (v : β) :
    mapGet (mapSet m k v) k = some v := by
  simp [mapGet, mapSet, List.lookup]

theorem mapGet_mapSet_other {β : Type} (m : List (String × β)) (k j : String) (v : β)
    (h : j ≠ k) : mapGet (mapSet m k v) j = mapGet m j := by
  have h2 : (j == k) = false := by simpa using h
  have := mapGet_mapDelete_other m k j h
  simpa [mapGet, mapSet, List.lookup, h2] using this

/-- The canonical form of a quantity is never the empty string, so the capacity part of
the check of line 127 never holds. -/
theorem Quantity.String_ne_empty (q : Quantity) : q.String ≠ "" := by
  unfold Quantity.String
  split
  · decide
  · assumption

/-- An annotated volume without claim reference makes the loop body panic. -/
theorem processPV_nil_claimRef (fold : Char → Char) (flags : Flags) (env : Nat → Reply) (fuel : Nat)
    (skuName : String) (pv : PersistentVolume) (st : State) (hp : provisioned pv = true)
    (hc : pv.ClaimRef = none) : processPV fold flags env fuel skuName pv st = .panicked st := by
  unfold processPV
  simp [hp, hc]

/-- An annotated volume without Azure disk source makes the loop body panic. -/
theorem processPV_nil_azureDisk (fold : Char → Char) (flags : Flags) (env : Nat → Reply)
    (fuel : Nat)
    (skuName : String) (pv : PersistentVolume) (st : State) (hp : provisioned pv = true)
    (claimRef : ObjectReference) (hc : pv.ClaimRef = some claimRef) (ha : pv.AzureDisk = none) :
    processPV fold flags env fuel skuName pv st = .panicked st := by
  unfold processPV
  simp [hp, hc, ha]

/-- Pausing a stored DaemonSet that has no node selector panics right after the read. -/
theorem pauseController_daemonSet_nil_selector (env : Nat → Reply) (ns name : String)
    (st : State) (ds : Workload) (hseen : controllerRefKey "DaemonSet" ns name ∉ st.controllerRefs)
    (h0 : env st.trace.length ≠ .err) (hds : findWorkload st.world .DaemonSet ns name = some ds)
    (hsel : ds.NodeSelector = none) :
    pauseController env ns "DaemonSet" name st =
      .panicked (st.emit (.getWorkload .DaemonSet ns name) true st.world) := by
  unfold pauseController
  simp only [hseen, if_false]
  rw [if_pos trivial, getWorkload_ok h0 hds]
  simp [hsel]

/-- Pausing a stored DaemonSet that has a node selector: the update adds
storage-migration=in-progress to it and the restoration is registered. -/
theorem pauseController_daemonSet_selector (env : Nat → Reply) (ns name : String)
    (st : State) (ds : Workload) (sel : List (String × String))
    (hseen : controllerRefKey "DaemonSet" ns name ∉ st.controllerRefs) (hname : name ≠ "")
    (h0 : env st.trace.length ≠ .err) (h1 : env (st.trace.length + 1) ≠ .err)
    (hds : findWorkload st.world .DaemonSet ns name = some ds)
    (hsel : ds.NodeSelector = some sel) :
    ∃ st1, pauseController env ns "DaemonSet" name st = .proceed st1 ∧
      newEvents st st1 =
        [Event.call (.getWorkload .DaemonSet ns name) true,
         Event.call (.updateWorkload .DaemonSet ns
           { ds with NodeSelector := some (mapSet sel "storage-migration" "in-progress") }) true,
         Event.registered (.restoreDaemonSet ns name)] := by
  obtain ⟨_, hn⟩ := findWorkload_some hds
  have hu := updateWorkload_ok env .DaemonSet ns
    { ds with NodeSelector := some (mapSet sel "storage-migration" "in-progress") } ds
    (st.emit (.getWorkload .DaemonSet ns name) true st.world)
    (by simpa [State.emit] using h1) (by simpa [hn] using hname)
    (by simpa [State.emit, hn] using hds)
  obtain ⟨Y, hY, hu⟩ : ∃ Y, Y = _ ∧
      updateWorkload env .DaemonSet ns
        { ds with NodeSelector := some (mapSet sel "storage-migration" "in-progress") }
        (st.emit (.getWorkload .DaemonSet ns name) true st.world) = (true, Y) := ⟨_, rfl, hu⟩
  refine ⟨{ Y.defer (.restoreDaemonSet ns name) with
      controllerRefs := controllerRefKey "DaemonSet" ns name ::
        (Y.defer (.restoreDaemonSet ns name)).controllerRefs }, ?_, ?_⟩
  · unfold pauseController
    simp only [hseen, if_false]
    rw [if_pos trivial, getWorkload_ok h0 hds]
    simp only [hsel]
    rw [hu]
  · subst hY
    simp [newEvents, State.emit, State.defer]

/-- A controller whose key is recorded is not touched again. -/
theorem pauseController_seen (env : Nat → Reply) (ns kind name : String) (st : State)
    (h : controllerRefKey kind ns name ∈ st.controllerRefs) :
    pauseController env ns kind name st = .skip st := by
  unfold pauseController
  simp [h]

theorem equalFoldRune_self (fold : Char → Char) (a : Char) : equalFoldRune fold a a = true := by
  simp [equalFoldRune]

/-- The case the ASCII rule does not cover.  The table of the Go library has the orbit
K, k, U+212A (Kelvin sign), back to K.  With a table that has this orbit the Kelvin sign
matches the letters k and K, and a volume of class premium-k is eligible for the source
class spelled with the Kelvin sign. -/
theorem equalFold_kelvin_sign (fold : Char → Char) (h1 : fold 'K' = 'k')
    (h2 : fold 'k' = '\u212A') :
    equalFold fold "premium-\u212A" "premium-k" = true ∧
      equalFold fold "premium-k" "premium-\u212A" = true ∧
      equalFold fold "premium-K" "premium-\u212A" = true ∧
      eligible fold { demoFlags with existingStorageClass := "premium-\u212A" }
        { pv1 "Retain" with StorageClassName := "premium-k" } = true := by
  have e1 : equalFoldRune fold '\u212A' 'k' =
      foldReaches fold 'k' '\u212A' (1114111 + 1) (fold 'k') := rfl
  have e2 : equalFoldRune fold 'k' '\u212A' =
      foldReaches fold 'k' '\u212A' (1114111 + 1) (fold 'k') := rfl
  have e3 : equalFoldRune fold 'K' '\u212A' =
      foldReaches fold 'K' '\u212A' (1114110 + 1 + 1) (fold 'K') := rfl
  have r1 : equalFoldRune fold '\u212A' 'k' = true := by rw [e1, h2]; rfl
  have r2 : equalFoldRune fold 'k' '\u212A' = true := by rw [e2, h2]; rfl
  have r3 : equalFoldRune fold 'K' '\u212A' = true := by
    rw [e3, h1]
    have : foldReaches fold 'K' '\u212A' (1114110 + 1 + 1) 'k' =
        foldReaches fold 'K' '\u212A' (1114110 + 1) (fold 'k') := rfl
    rw [this, h2]; rfl
  have a2 : equalFold fold "premium-k" "premium-\u212A" = true := by
    show equalFoldRunes fold ['p', 'r', 'e', 'm', 'i', 'u', 'm', '-', 'k']
      ['p', 'r', 'e', 'm', 'i', 'u', 'm', '-', '\u212A'] = true
    simp [equalFoldRunes, equalFoldRune_self, r2]
  refine ⟨?_, a2, ?_, ?_⟩
  · show equalFoldRunes fold ['p', 'r', 'e', 'm', 'i', 'u', 'm', '-', '\u212A']
      ['p', 'r', 'e', 'm', 'i', 'u', 'm', '-', 'k'] = true
    simp [equalFoldRunes, equalFoldRune_self, r1]
  · show equalFoldRunes fold ['p', 'r', 'e', 'm', 'i', 'u', 'm', '-', 'K']
      ['p', 'r', 'e', 'm', 'i', 'u', 'm', '-', '\u212A'] = true
    simp [equalFoldRunes, equalFoldRune_self, r3]
  · have : eligible fold { demoFlags with existingStorageClass := "premium-\u212A" }
        { pv1 "Retain" with StorageClassName := "premium-k" } =
        (equalFold fold "premium-k" "premium-\u212A" && true) := rfl
    rw [this, a2]
    rfl

/-- The runs and iterations of the scenarios that are stated with `identityFold` are the
same with every folding table. -/
theorem scenario_runs_any_table (fold : Char → Char) :
    migrateStorage fold demoFlags noFaults 3 (webWorld "Retain") =
        migrateStorage identityFold demoFlags noFaults 3 (webWorld "Retain") ∧
      migrateStorage fold demoFlags noFaults 3
          (migrateStorage identityFold demoFlags noFaults 3 (webWorld "Retain")).state.world =
        migrateStorage identityFold demoFlags noFaults 3
          (migrateStorage identityFold demoFlags noFaults 3 (webWorld "Retain")).state.world ∧
      eligible fold demoFlags (pv1 "Retain") = eligible identityFold demoFlags (pv1 "Retain") ∧
      migrateStorage fold deleteFlags noFaults 3 (webWorld "Delete") =
        migrateStorage identityFold deleteFlags noFaults 3 (webWorld "Delete") ∧
      migrateStorage fold deleteFlags noFaults 3
          (migrateStorage identityFold deleteFlags noFaults 3 (webWorld "Delete")).state.world =
        migrateStorage identityFold deleteFlags noFaults 3
          (migrateStorage identityFold deleteFlags noFaults 3 (webWorld "Delete")).state.world ∧
      processPV fold demoFlags noFaults 3 "Premium_LRS" (pv1 "Retain")
          (initial (webWorld "Retain")) =
        processPV identityFold demoFlags noFaults 3 "Premium_LRS" (pv1 "Retain")
          (initial (webWorld "Retain")) ∧
      processPV fold demoFlags noFaults 3 "Premium_LRS" (pv1 "Retain")
          (initial annotatedWorld) =
        processPV identityFold demoFlags noFaults 3 "Premium_LRS" (pv1 "Retain")
          (initial annotatedWorld) ∧
      processPV fold demoFlags allFail 3 "Premium_LRS" (pv1 "Delete")
          (initial (webWorld "Delete")) =
        processPV identityFold demoFlags allFail 3 "Premium_LRS" (pv1 "Delete")
          (initial (webWorld "Delete")) :=
  of_decide_eq_true rfl

/-- The iteration of a volume listed as Retain registers no deferred delete, whatever
the flags. -/
theorem processPV_retained_registers_no_delete (fold : Char → Char) (flags : Flags)
    (env : Nat → Reply) (fuel : Nat)
    (skuName : String) (pv : PersistentVolume) (st : State)
    (h : pv.PersistentVolumeReclaimPolicy = "Retain") (n : String) :
    Event.registered (.deletePV n) ∉
      newEvents st (processPV fold flags env fuel skuName pv st).state := by
  intro hmem
  rcases (processPV_grows fold flags env fuel skuName pv st).newEvents _ hmem with h1 | h1 | h1
  · exact h1.2.2 h
  · exact absurd h1 (by simp [PauseEvent])
  · exact absurd h1 (by simp [CutoverEvent])

/-- C1 at the scenario volume listed with policy Delete when every request fails: the
iteration ends after the failed update. -/
theorem C1_witness :
    processPV identityFold demoFlags allFail 3 "Premium_LRS" (sourcePV "1" "Delete" tenGi (claimRefTo "1"))
        (initial (webWorld "Delete")) =
      .skip ((initial (webWorld "Delete")).emit
        (.updatePV (retained (sourcePV "1" "Delete" tenGi (claimRefTo "1")))) false
        (webWorld "Delete")) ∧
    newEvents (initial (webWorld "Delete"))
        (processPV identityFold demoFlags allFail 3 "Premium_LRS" (sourcePV "1" "Delete" tenGi (claimRefTo "1"))
          (initial (webWorld "Delete"))).state =
      [Event.call (.updatePV (retained (sourcePV "1" "Delete" tenGi (claimRefTo "1")))) false] :=
  (C1_delete_claim_only_when_retained identityFold demoFlags allFail 3 "Premium_LRS"
    (sourcePV "1" "Delete" tenGi (claimRefTo "1")) (initial (webWorld "Delete"))
    (by decide)).2 (by decide) (by decide)

/-- C6 at the scenario run with delete-migrated set and policy Delete: the delete of
pv-1 is registered first and started last. -/
theorem C6_witness :
    executions (migrateStorage identityFold deleteFlags noFaults 3 (webWorld "Delete")).state.trace =
      [.restoreReplicas .Deployment "app" "web" (some 3), .deletePV "pv-1"] ∧
    registrations (migrateStorage identityFold deleteFlags noFaults 3 (webWorld "Delete")).state.trace =
      [.deletePV "pv-1", .restoreReplicas .Deployment "app" "web" (some 3)] ∧
    executions (migrateStorage identityFold deleteFlags noFaults 3 (webWorld "Delete")).state.trace =
      (registrations
        (migrateStorage identityFold deleteFlags noFaults 3 (webWorld "Delete")).state.trace).reverse :=
  ⟨by decide, by decide,
    (C6_restorations_after_loop_in_reverse identityFold deleteFlags noFaults 3 (webWorld "Delete")
      (migrateStorage identityFold deleteFlags noFaults 3 (webWorld "Delete")).state (by decide)).1⟩

/-- C7 (as stated) fails: after a run that migrated pv-1 with every request succeeding,
the old volume is still listed and still eligible, and a second run with the same flags
scales Deployment web to 0 again and asks again for the creation of pv-1-csi. -/
theorem C7_second_run_pauses_and_creates_again :
    migrateStorage identityFold demoFlags noFaults 3 (webWorld "Retain") =
        .done (migrateStorage identityFold demoFlags noFaults 3 (webWorld "Retain")).state ∧
      Event.call (.createPVC "app"
          (newPVC "managed-csi" (pv1 "Retain") "app" "data-1" (sourcePVC "1"))) true ∈
        (migrateStorage identityFold demoFlags noFaults 3 (webWorld "Retain")).state.trace ∧
      (migrateStorage identityFold demoFlags noFaults 3 (webWorld "Retain")).state.world.pvs =
        [pv1 "Retain", newPV "managed-csi" "Premium_LRS" (pv1 "Retain") "app" "data-1" "disk-uri-1"] ∧
      eligible identityFold demoFlags (pv1 "Retain") = true ∧
      Event.call (.updateWorkload .Deployment "app" (webAt (some 0))) true ∈
        (migrateStorage identityFold demoFlags noFaults 3
          (migrateStorage identityFold demoFlags noFaults 3 (webWorld "Retain")).state.world).state.trace ∧
      Event.call (.writeFile "cluster/pv-1.json" (.name "pv-1")) true ∈
        (migrateStorage identityFold demoFlags noFaults 3
          (migrateStorage identityFold demoFlags noFaults 3 (webWorld "Retain")).state.world).state.trace ∧
      Event.call
          (.createPV (newPV "managed-csi" "Premium_LRS" (pv1 "Retain") "app" "data-1" "disk-uri-1"))
          false ∈
        (migrateStorage identityFold demoFlags noFaults 3
          (migrateStorage identityFold demoFlags noFaults 3 (webWorld "Retain")).state.world).state.trace := by
  decide

/-- C2 fails at a volume without capacity: the zero quantity renders as "0", the
check of line 127 does not fire, and the volume is migrated like any other (whatever
the folding table). -/
theorem C2_volume_without_capacity_is_migrated (fold : Char → Char) :
    mapGet (sourcePV "1" "Retain" [] (claimRefTo "1")).Capacity "storage" = none ∧
      fieldEmpty (sourcePV "1" "Retain" [] (claimRefTo "1")) "app" "data-1" "disk-uri-1" = false ∧
      migrateStorage fold demoFlags noFaults 3 noCapacityWorld =
        .done (migrateStorage fold demoFlags noFaults 3 noCapacityWorld).state ∧
      Event.call (.writeFile "cluster/pv-1.json" (.name "pv-1")) true ∈
        (migrateStorage fold demoFlags noFaults 3 noCapacityWorld).state.trace ∧
      Event.call
          (.createPV (newPV "managed-csi" "Premium_LRS" (sourcePV "1" "Retain" [] (claimRefTo "1"))
            "app" "data-1" "disk-uri-1")) true ∈
        (migrateStorage fold demoFlags noFaults 3 noCapacityWorld).state.trace ∧
      Event.call (.deletePVC "app" "data-1") true ∈
        (migrateStorage fold demoFlags noFaults 3 noCapacityWorld).state.trace ∧
      (findPVC (migrateStorage fold demoFlags noFaults 3 noCapacityWorld).state.world "app"
          "data-1").map (fun c => c.VolumeName) = some "pv-1-csi" :=
  of_decide_eq_true rfl

/-- C5 fails when the two claims are mounted through two ReplicaSets of the same
Deployment: the key stored is that of the ReplicaSet, so the pause step scales
Deployment web to 0 once per ReplicaSet and registers two restorations, the second with
the 0 replicas it read.  The log holds the update to 0 three times (two pauses and the
restoration registered last, which runs first) before the first restoration puts 3
back.  This holds whatever the folding table. -/
theorem C5_deployment_scaled_once_per_replicaset (fold : Char → Char) :
    migrateStorage fold demoFlags noFaults 3 twoReplicaSetsWorld =
        .done (migrateStorage fold demoFlags noFaults 3 twoReplicaSetsWorld).state ∧
      (migrateStorage fold demoFlags noFaults 3 twoReplicaSetsWorld).state.trace.count
          (Event.call (.updateWorkload .Deployment "app" (webAt (some 0))) true) = 3 ∧
      registrations (migrateStorage fold demoFlags noFaults 3 twoReplicaSetsWorld).state.trace =
        [.restoreReplicas .Deployment "app" "web" (some 3),
         .restoreReplicas .Deployment "app" "web" (some 0)] ∧
      executions (migrateStorage fold demoFlags noFaults 3 twoReplicaSetsWorld).state.trace =
        [.restoreReplicas .Deployment "app" "web" (some 0),
         .restoreReplicas .Deployment "app" "web" (some 3)] ∧
      (migrateStorage fold demoFlags noFaults 3 twoReplicaSetsWorld).state.controllerRefs =
        ["ReplicaSet/app/web-b", "ReplicaSet/app/web-a"] ∧
      findWorkload (migrateStorage fold demoFlags noFaults 3 twoReplicaSetsWorld).state.world
        .Deployment "app" "web" = some (webAt (some 3)) :=
  of_decide_eq_true rfl

/-- C8 fails at an annotated volume without claim reference, and at one without Azure
disk source: the run panics at lines 115-120 before any check, and pv-1, listed
after it, is never looked at (whatever the folding table). -/
theorem C8_missing_pointer_field_aborts_the_run (fold : Char → Char) :
    migrateStorage fold demoFlags noFaults 3 unboundWorld =
        .panicked
          { world := unboundWorld
            trace := [.call (.mkdir "cluster") true, .call (.getStorageClass "managed-csi") true,
              .call .listPVs true]
            controllerRefs := [], deferred := [] } ∧
      (migrateStorage fold demoFlags noFaults 3
          (demoWorld [{ pv1 "Retain" with AzureDisk := none }, sourcePV "2" "Retain" tenGi
            (claimRefTo "2")] [sourcePVC "1", sourcePVC "2"] [] [])).state.trace =
        [.call (.mkdir "cluster") true, .call (.getStorageClass "managed-csi") true,
          .call .listPVs true] ∧
      eligible fold demoFlags (pv1 "Retain") = true :=
  of_decide_eq_true rfl

/-- C9 fails at a DaemonSet whose pod template has no node selector: the assignment of
line 192 writes to a nil map and the run panics; no update of the DaemonSet is issued
(whatever the folding table). -/
theorem C9_daemonset_without_node_selector_panics (fold : Char → Char) :
    migrateStorage fold demoFlags noFaults 3 daemonSetWorld =
      .panicked
        { world := daemonSetWorld
          trace := [.call (.mkdir "cluster") true, .call (.getStorageClass "managed-csi") true,
            .call .listPVs true, .call (.listPods "app") true,
            .call (.getWorkload .DaemonSet "app" "agent") true]
          controllerRefs := [], deferred := [] } :=
  of_decide_eq_true rfl

/-- C10 fails at a volume that is already Retain: with the delete-migrated flag set the
volume is migrated, no delete of pv-1 is registered or issued, and pv-1 is still there
at the end; the same volume listed with policy Delete gets the deferred delete.  This
holds whatever the folding table. -/
theorem C10_retained_volume_gets_no_deferred_delete (fold : Char → Char) :
    deleteFlags.deletePVs = true ∧
      migrateStorage fold deleteFlags noFaults 3 (webWorld "Retain") =
        .done (migrateStorage fold deleteFlags noFaults 3 (webWorld "Retain")).state ∧
      Event.call (.createPVC "app"
          (newPVC "managed-csi" (pv1 "Retain") "app" "data-1" (sourcePVC "1"))) true ∈
        (migrateStorage fold deleteFlags noFaults 3 (webWorld "Retain")).state.trace ∧
      registrations (migrateStorage fold deleteFlags noFaults 3 (webWorld "Retain")).state.trace =
        [.restoreReplicas .Deployment "app" "web" (some 3)] ∧
      Event.call (.deletePV "pv-1") true ∉
        (migrateStorage fold deleteFlags noFaults 3 (webWorld "Retain")).state.trace ∧
      findPV (migrateStorage fold deleteFlags noFaults 3 (webWorld "Retain")).state.world "pv-1" =
        some (pv1 "Retain") ∧
      registrations (migrateStorage fold deleteFlags noFaults 3 (webWorld "Delete")).state.trace =
        [.deletePV "pv-1", .restoreReplicas .Deployment "app" "web" (some 3)] ∧
      findPV (migrateStorage fold deleteFlags noFaults 3 (webWorld "Delete")).state.world "pv-1" =
        none :=
  of_decide_eq_true rfl

/-- A claim that `Get` returns is stored under the namespace and name asked for. -/
theorem getPVC_found {env : Nat → Reply} {ns name : String} {st st1 : State}
    {c : PersistentVolumeClaim} (h : getPVC env ns name st = (.ok c, st1)) :
    findPVC st.world ns name = some c ∧ c.Namespace = ns ∧ c.Name = name := by
  have hf : findPVC st.world ns name = some c := by
    unfold getPVC at h
    split at h
    · cases h
    · split at h
      · cases h
      next c1 hc =>
        split at h
        · cases h
        · cases h; exact hc
  refine ⟨hf, ?_⟩
  unfold findPVC at hf
  have := List.find?_some hf
  simpa using this

/-- C3. In the loop iteration of a volume, every request to create a volume sends one
named after the old volume with the suffix -csi whose capacity map holds exactly one
entry, under the key storage, with the quantity the old volume has under that key (the
zero quantity when the old volume has none); every request to create a claim sends one
whose volumeName is that name; and an iteration that runs to its end has issued both
requests with success. -/
theorem C3_new_volume_name_and_capacity (fold : Char → Char) (flags : Flags)
    (env : Nat → Reply) (fuel : Nat) (skuName : String) (pv : PersistentVolume) (st : State) :
    (∀ p ok, Event.call (.createPV p) ok ∈
        newEvents st (processPV fold flags env fuel skuName pv st).state →
      p.Name = pv.Name ++ "-csi" ∧
      (∀ q, List.lookup "storage" pv.Capacity = some q → p.Capacity = [("storage", q)]) ∧
      (List.lookup "storage" pv.Capacity = none → p.Capacity = [("storage", { s := "" })])) ∧
    (∀ ns c ok, Event.call (.createPVC ns c) ok ∈
        newEvents st (processPV fold flags env fuel skuName pv st).state →
      c.VolumeName = pv.Name ++ "-csi") ∧
    (∀ s, processPV fold flags env fuel skuName pv st = .proceed s →
      ∃ p ns c, Event.call (.createPV p) true ∈ newEvents st s ∧
        Event.call (.createPVC ns c) true ∈ newEvents st s ∧ c.VolumeName = p.Name) := by
  have hall := (processPV_grows fold flags env fuel skuName pv st).newEvents
  refine ⟨?_, ?_, ?_⟩
  · intro p ok hmem
    rcases hall _ hmem with h | h | h
    · exact absurd h (by simp [RetainEvent])
    · exact absurd h (by simp [PauseEvent])
    · obtain ⟨ns, name, uri, rfl⟩ := h
      refine ⟨rfl, ?_, ?_⟩
      · intro q hq
        simp [newPV, capacityStorage, mapGet, hq]
      · intro hq
        simp [newPV, capacityStorage, mapGet, hq]
  · intro ns c ok hmem
    rcases hall _ hmem with h | h | h
    · exact absurd h (by simp [RetainEvent])
    · exact absurd h (by simp [PauseEvent])
    · obtain ⟨ns, name, old, rfl⟩ := h
      rfl
  · intro s hs
    unfold processPV at hs
    split at hs
    · cases hs
    · split at hs
      · cases hs
      · split at hs
        · cases hs
        · split at hs
          · cases hs
          · split at hs
            · cases hs
            · obtain ⟨old, ha, hb⟩ := migrate_proceed _ _ _ _ _ _ _ _ _ _ _ hs
              exact ⟨_, _, _, ha, hb, rfl⟩

/-- C3 at the scenario volume (10Gi) with every request served: the iteration runs to
its end, the volume it created is pv-1-csi with the one capacity entry storage = 10Gi,
the claim it created names pv-1-csi, and both are stored at the end. -/
theorem C3_witness :
    (∃ p ns c,
      Event.call (.createPV p) true ∈
          newEvents (initial (webWorld "Retain"))
            (processPV identityFold demoFlags noFaults 3 "Premium_LRS" (pv1 "Retain")
              (initial (webWorld "Retain"))).state ∧
        Event.call (.createPVC ns c) true ∈
          newEvents (initial (webWorld "Retain"))
            (processPV identityFold demoFlags noFaults 3 "Premium_LRS" (pv1 "Retain")
              (initial (webWorld "Retain"))).state ∧
        p.Name = "pv-1-csi" ∧ p.Capacity = [("storage", { s := "10Gi" })] ∧
        c.VolumeName = "pv-1-csi") ∧
    (findPV (processPV identityFold demoFlags noFaults 3 "Premium_LRS" (pv1 "Retain")
        (initial (webWorld "Retain"))).state.world "pv-1-csi").map (fun p => p.Capacity) =
      some [("storage", { s := "10Gi" })] ∧
    (findPVC (processPV identityFold demoFlags noFaults 3 "Premium_LRS" (pv1 "Retain")
        (initial (webWorld "Retain"))).state.world "app" "data-1").map (fun c => c.VolumeName) =
      some "pv-1-csi" := by
  obtain ⟨p, ns, c, h1, h2, h3⟩ :=
    (C3_new_volume_name_and_capacity identityFold demoFlags noFaults 3 "Premium_LRS"
      (pv1 "Retain") (initial (webWorld "Retain"))).2.2
      (processPV identityFold demoFlags noFaults 3 "Premium_LRS" (pv1 "Retain")
        (initial (webWorld "Retain"))).state (by decide)
  obtain ⟨hn, hq, _⟩ :=
    (C3_new_volume_name_and_capacity identityFold demoFlags noFaults 3 "Premium_LRS"
      (pv1 "Retain") (initial (webWorld "Retain"))).1 p true h1
  exact ⟨⟨p, ns, c, h1, h2, hn, hq { s := "10Gi" } rfl, h3.trans hn⟩, by decide, by decide⟩

/-- The loop over `pre ++ x :: post`, when its part over `pre` falls through to `s`,
goes on with the body at `x` in `s`. -/
theorem forRange_split {α : Type} (body : α → State → Flow) (pre : List α) (x : α)
    (post : List α) (st s : State) (h : forRange body pre st = .proceed s) :
    forRange body (pre ++ x :: post) st = forRange body (x :: post) s := by
  induction pre generalizing st with
  | nil =>
    simp only [forRange] at h
    cases h
    rfl
  | cons a pre ih =>
    simp only [List.cons_append]
    unfold forRange at h ⊢
    cases hb : body a st with
    | proceed s1 => rw [hb] at h; exact ih s1 h
    | skip s1 => rw [hb] at h; exact ih s1 h
    | panicked s1 => rw [hb] at h; cases h
    | stuck s1 => rw [hb] at h; cases h

/-- What the loop logs after the body at `x` is logged by the rest of the loop. -/
theorem forRange_split_grows {α : Type} {P : Event → Prop} (body : α → State → Flow)
    (hbody : ∀ x st, Grows P st (body x st).state) (pre : List α) (x : α) (post : List α)
    (st s : State) (h : forRange body pre st = .proceed s) :
    Grows P (body x s).state (forRange body (pre ++ x :: post) st).state := by
  rw [forRange_split body pre x post st s h]
  unfold forRange
  cases body x s with
  | proceed s1 => exact forRange_grows body hbody post s1
  | skip s1 => exact forRange_grows body hbody post s1
  | panicked s1 => exact Grows.refl _ _
  | stuck s1 => exact Grows.refl _ _

/-- One volume of a pod that mounts the claim and whose first owner is a ReplicaSet
with an owner of its own, both objects stored, the key not recorded and the three
requests served: the ReplicaSet is read, the Deployment is read and updated to 0
replicas, and its restoration is registered with the replica count just read. -/
theorem pauseVolume_replicaSet (fold : Char → Char) (env : Nat → Reply)
    (ns claimRefName claimName : String)
    (pod : Pod) (volume : Volume) (st : State) (rsName : String)
    (rest orest : List OwnerReference) (owner : OwnerReference) (rs dep : Workload)
    (hvol : volume.PersistentVolumeClaim = some claimName)
    (hfold : equalFold fold claimName claimRefName = true)
    (hown : pod.OwnerReferences = { Kind := "ReplicaSet", Name := rsName } :: rest)
    (hrsName : rsName ≠ "")
    (hseen : controllerRefKey "ReplicaSet" ns rsName ∉ st.controllerRefs)
    (hrs : findWorkload st.world .ReplicaSet ns rsName = some rs)
    (hrsown : rs.OwnerReferences = owner :: orest)
    (hkind : owner.Kind ≠ "") (hname : owner.Name ≠ "")
    (hdep : findWorkload st.world .Deployment ns owner.Name = some dep)
    (h0 : env st.trace.length ≠ .err) (h1 : env (st.trace.length + 1) ≠ .err)
    (h2 : env (st.trace.length + 2) ≠ .err) :
    ∃ st1, pauseVolume fold env ns claimRefName pod volume st = .proceed st1 ∧
      st1.trace = st.trace ++
        [Event.call (.getWorkload .ReplicaSet ns rsName) true,
         Event.call (.getWorkload .Deployment ns owner.Name) true,
         Event.call (.updateWorkload .Deployment ns { dep with Replicas := some 0 }) true,
         Event.registered (.restoreReplicas .Deployment ns owner.Name dep.Replicas)] ∧
      findWorkload st1.world .Deployment ns owner.Name = some { dep with Replicas := some 0 } ∧
      findWorkload st1.world .ReplicaSet ns rsName = some rs ∧
      st1.deferred = .restoreReplicas .Deployment ns owner.Name dep.Replicas :: st.deferred := by
  obtain ⟨hdns, hdname⟩ := findWorkload_some hdep
  have hsd := scaleDown_ok env .Deployment ns owner.Name
    (st.emit (.getWorkload .ReplicaSet ns rsName) true st.world) dep
    (by simpa [State.emit] using hdep) (by simpa [State.emit] using h1)
    (by simpa [State.emit, Nat.add_assoc] using h2) hname
  obtain ⟨X, hX, hsd⟩ : ∃ X, X = _ ∧
      scaleDown env .Deployment ns owner.Name
        (st.emit (.getWorkload .ReplicaSet ns rsName) true st.world) = .proceed X :=
    ⟨_, rfl, hsd⟩
  have hpc : pauseController env ns "ReplicaSet" rsName st =
      .proceed
        { X with controllerRefs := controllerRefKey "ReplicaSet" ns rsName :: X.controllerRefs } := by
    unfold pauseController
    simp only [hseen, if_false]
    rw [if_neg (by decide), if_neg (by decide), if_pos trivial, getWorkload_ok h0 hrs]
    simp only [hrsown, hkind, hname, or_self, if_false]
    rw [hsd]
  have hpv : pauseVolume fold env ns claimRefName pod volume st =
      pauseController env ns "ReplicaSet" rsName st := by
    unfold pauseVolume
    simp [hvol, hfold, hown, hrsName]
  refine ⟨_, hpv.trans hpc, ?_, ?_, ?_, ?_⟩ <;> try subst hX
  · simp [State.emit, State.defer]
  · have := findWorkload_updated st.world .Deployment ns { dep with Replicas := some 0 } dep
      hdns (by simpa [hdname] using hdep)
    simpa [State.emit, State.defer, hdname] using this
  · have := findWorkload_other_kind st.world .Deployment .ReplicaSet ns ns rsName
      { dep with Replicas := some 0 } (by decide)
    simp only [State.emit, State.defer]
    rw [← hrs]
    simpa using this
  · simp [State.emit, State.defer]

/-- What is logged after the pause step of an iteration whose retain step fell through
is logged by the cutover. -/
theorem migrate_after_pause (fold : Char → Char) (flags : Flags) (env : Nat → Reply)
    (fuel : Nat) (skuName : String) (pv : PersistentVolume) (ns name uri : String)
    (st s0 : State) (hret : retain env flags.deletePVs pv st = .proceed s0) :
    Grows (CutoverEvent flags skuName pv) (pauseConsumers fold env ns name s0).state
      (migrate fold flags env fuel skuName pv ns name uri st).state := by
  unfold migrate
  rw [hret]
  simp only
  cases pauseConsumers fold env ns name s0 with
  | proceed s2 => exact cutover_grows ..
  | skip s2 => exact Grows.refl _ _
  | panicked s2 => exact Grows.refl _ _
  | stuck s2 => exact Grows.refl _ _

/-- C4. The iteration of an eligible volume whose retain step falls through lists the
pods of the claim's namespace.  Take a pod of that listing and one of its volumes, such
that the pause step reaches them (the pods and volumes before them neither panic nor
hang), in state `s1`; the volume mounts the claim, the pod's first owner is a
ReplicaSet, the ReplicaSet stored in `s1` has an owner of its own and the Deployment of
that name is stored in `s1` as `dep`; the ReplicaSet was not paused before and the
three requests are served.  Then the pause step handles that volume, from `s1` to `s2`, by
logging exactly: read the ReplicaSet, read the Deployment, update the Deployment to
`dep` with 0 replicas, register the restoration of the Deployment with the replica
count of `dep`; none of these is an update of the ReplicaSet, and they stand in the
log of the iteration between what led to `s1` and what follows `s2`.  In `s2` the
Deployment is stored with 0 replicas and the ReplicaSet as before, and at the end of
the iteration the restoration is on the stack of deferred calls.  Run later (with the
Deployment stored and its two requests served) the restoration reads the Deployment and
stores it with the replica count of `dep`. -/
theorem C4_replicaset_owner_is_scaled (fold : Char → Char) (flags : Flags) (env : Nat → Reply)
    (fuel : Nat) (skuName : String) (pv : PersistentVolume) (st : State)
    (claimRef : ObjectReference) (s0 s0' s s1 : State) (pre post : List Pod) (pod : Pod)
    (vpre vpost : List Volume) (volume : Volume) (claimName rsName : String)
    (rest orest : List OwnerReference) (owner : OwnerReference) (rs dep : Workload)
    (helig : eligible fold flags pv = true) (hclaim : pv.ClaimRef = some claimRef)
    (hret : retain env flags.deletePVs pv st = .proceed s0)
    (hlist : listPods env claimRef.Namespace s0 = (some (pre ++ pod :: post), s0'))
    (hpre : forRange (fun p => forRange
        (pauseVolume fold env claimRef.Namespace claimRef.Name p) p.Volumes) pre s0' =
      .proceed s)
    (hvols : pod.Volumes = vpre ++ volume :: vpost)
    (hvpre : forRange (pauseVolume fold env claimRef.Namespace claimRef.Name pod) vpre s =
      .proceed s1)
    (hvol : volume.PersistentVolumeClaim = some claimName)
    (hfold : equalFold fold claimName claimRef.Name = true)
    (hown : pod.OwnerReferences = { Kind := "ReplicaSet", Name := rsName } :: rest)
    (hrsName : rsName ≠ "")
    (hseen : controllerRefKey "ReplicaSet" claimRef.Namespace rsName ∉ s1.controllerRefs)
    (hrs : findWorkload s1.world .ReplicaSet claimRef.Namespace rsName = some rs)
    (hrsown : rs.OwnerReferences = owner :: orest)
    (hkind : owner.Kind ≠ "") (hname : owner.Name ≠ "")
    (hdep : findWorkload s1.world .Deployment claimRef.Namespace owner.Name = some dep)
    (h0 : env s1.trace.length ≠ .err) (h1 : env (s1.trace.length + 1) ≠ .err)
    (h2 : env (s1.trace.length + 2) ≠ .err) :
    (∃ s2,
      pauseVolume fold env claimRef.Namespace claimRef.Name pod volume s1 = .proceed s2 ∧
      newEvents s1 s2 =
        [Event.call (.getWorkload .ReplicaSet claimRef.Namespace rsName) true,
         Event.call (.getWorkload .Deployment claimRef.Namespace owner.Name) true,
         Event.call (.updateWorkload .Deployment claimRef.Namespace
           { dep with Replicas := some 0 }) true,
         Event.registered
           (.restoreReplicas .Deployment claimRef.Namespace owner.Name dep.Replicas)] ∧
      newEvents st (processPV fold flags env fuel skuName pv st).state =
        newEvents st s1 ++ newEvents s1 s2 ++
          newEvents s2 (processPV fold flags env fuel skuName pv st).state ∧
      findWorkload s2.world .Deployment claimRef.Namespace owner.Name =
        some { dep with Replicas := some 0 } ∧
      findWorkload s2.world .ReplicaSet claimRef.Namespace rsName = some rs ∧
      Deferred.restoreReplicas .Deployment claimRef.Namespace owner.Name dep.Replicas ∈
        (processPV fold flags env fuel skuName pv st).state.deferred) ∧
    ∀ (r : State) (d : Workload),
      findWorkload r.world .Deployment claimRef.Namespace owner.Name = some d →
      env r.trace.length ≠ .err → env (r.trace.length + 1) ≠ .err →
      findWorkload
          (runDeferred env
            (.restoreReplicas .Deployment claimRef.Namespace owner.Name dep.Replicas) r).world
          .Deployment claimRef.Namespace owner.Name = some { d with Replicas := dep.Replicas } ∧
        newEvents r
            (runDeferred env
              (.restoreReplicas .Deployment claimRef.Namespace owner.Name dep.Replicas) r) =
          [Event.call (.getWorkload .Deployment claimRef.Namespace owner.Name) true,
           Event.call (.updateWorkload .Deployment claimRef.Namespace
             { d with Replicas := dep.Replicas }) true] := by
  refine ⟨?_, fun r d hd hr0 hr1 => restoreReplicas_ok hd hname hr0 hr1⟩
  obtain ⟨s2, hpv, htr, hwd, hwr, hdef⟩ :=
    pauseVolume_replicaSet fold env claimRef.Namespace claimRef.Name claimName pod volume s1
      rsName rest orest owner rs dep hvol hfold hown hrsName hseen hrs hrsown hkind hname hdep
      h0 h1 h2
  obtain ⟨claimRef1, azureDisk, hc1, _, hp⟩ :=
    processPV_eligible fold flags env fuel skuName pv st helig
  rw [hclaim] at hc1
  cases hc1
  -- the log from `st` to `s1`
  have gr : Grows (fun _ => True) st s0 := by
    have := (retain_grows env flags pv st).mono (Q := fun _ => True) (fun _ _ => trivial)
    rwa [hret] at this
  have gl : Grows (fun _ => True) s0 s0' := listPods_grows hlist (fun _ => trivial)
  have hin : ∀ p x r, Grows (fun _ => True) r
      (pauseVolume fold env claimRef.Namespace claimRef.Name p x r).state :=
    fun p x r => (pauseVolume_grows fold env claimRef.Namespace claimRef.Name p x r).mono
      (fun _ _ => trivial)
  have hout : ∀ p r, Grows (fun _ => True) r
      (forRange (pauseVolume fold env claimRef.Namespace claimRef.Name p) p.Volumes r).state :=
    fun p r => forRange_grows _ (hin p) _ r
  have gpre : Grows (fun _ => True) s0' s := by
    have := forRange_grows (P := fun _ => True) (fun p => forRange
      (pauseVolume fold env claimRef.Namespace claimRef.Name p) p.Volumes) hout pre s0'
    rwa [hpre] at this
  have gvpre : Grows (fun _ => True) s s1 := by
    have := forRange_grows (P := fun _ => True)
      (pauseVolume fold env claimRef.Namespace claimRef.Name pod) (hin pod) vpre s
    rwa [hvpre] at this
  have g01 : Grows (fun _ => True) st s1 := ((gr.trans gl).trans gpre).trans gvpre
  -- the log from `s2` to the end of the iteration
  have ginner : Grows (fun _ => True) s2
      (forRange (pauseVolume fold env claimRef.Namespace claimRef.Name pod) pod.Volumes
        s).state := by
    have := forRange_split_grows (P := fun _ => True)
      (pauseVolume fold env claimRef.Namespace claimRef.Name pod) (hin pod) vpre volume vpost
      s s1 hvpre
    rw [hpv] at this
    rw [hvols]
    exact this
  have gouter : Grows (fun _ => True)
      (forRange (pauseVolume fold env claimRef.Namespace claimRef.Name pod) pod.Volumes s).state
      (pauseConsumers fold env claimRef.Namespace claimRef.Name s0).state := by
    unfold pauseConsumers
    rw [hlist]
    exact forRange_split_grows (P := fun _ => True) (fun p => forRange
      (pauseVolume fold env claimRef.Namespace claimRef.Name p) p.Volumes) hout pre pod post
      s0' s hpre
  have gend : Grows (fun _ => True) s2 (processPV fold flags env fuel skuName pv st).state := by
    rw [hp]
    exact (ginner.trans gouter).trans
      ((migrate_after_pause fold flags env fuel skuName pv claimRef.Namespace claimRef.Name
        azureDisk.DataDiskURI st s0 hret).mono (fun _ _ => trivial))
  have g12 : s1.trace <+: s2.trace := ⟨_, htr.symm⟩
  refine ⟨s2, hpv, by simp [newEvents, htr], ?_, hwd, hwr, ?_⟩
  · rw [newEvents_trans (g01.trace_grows.trans g12) gend.trace_grows,
      newEvents_trans g01.trace_grows g12]
  · obtain ⟨tail, _, _, hd⟩ := gend
    rw [hd, hdef]
    simp

/-- C4 at the scenario volume pv-1 and the pod web-a-1, the only pod listed: after the
pod listing the iteration reads ReplicaSet web-a, reads Deployment web, updates it to
0 replicas and registers its restoration with 3 replicas; ReplicaSet web-a stays as
stored, and the restoration puts 3 replicas back on the Deployment.  In the whole run
that restoration is the one deferred call started, and at the end Deployment web has 3
replicas again and ReplicaSet web-a is as it was. -/
theorem C4_witness :
    (∃ s2,
      pauseVolume identityFold noFaults "app" "data-1" (podOf "web-a-1" "ReplicaSet" "web-a" "1")
          { Name := "data", PersistentVolumeClaim := some "data-1" }
          ((initial (webWorld "Retain")).emit (.listPods "app") true (webWorld "Retain")) =
        .proceed s2 ∧
      newEvents (initial (webWorld "Retain"))
          (processPV identityFold demoFlags noFaults 3 "Premium_LRS" (pv1 "Retain")
            (initial (webWorld "Retain"))).state =
        [Event.call (.listPods "app") true] ++
          [Event.call (.getWorkload .ReplicaSet "app" "web-a") true,
           Event.call (.getWorkload .Deployment "app" "web") true,
           Event.call (.updateWorkload .Deployment "app" (webAt (some 0))) true,
           Event.registered (.restoreReplicas .Deployment "app" "web" (some 3))] ++
          newEvents s2
            (processPV identityFold demoFlags noFaults 3 "Premium_LRS" (pv1 "Retain")
              (initial (webWorld "Retain"))).state ∧
      findWorkload s2.world .Deployment "app" "web" = some (webAt (some 0)) ∧
      findWorkload s2.world .ReplicaSet "app" "web-a" = some (webRS "web-a") ∧
      Deferred.restoreReplicas .Deployment "app" "web" (some 3) ∈
        (processPV identityFold demoFlags noFaults 3 "Premium_LRS" (pv1 "Retain")
          (initial (webWorld "Retain"))).state.deferred ∧
      findWorkload
          (runDeferred noFaults (.restoreReplicas .Deployment "app" "web" (some 3)) s2).world
          .Deployment "app" "web" = some (webAt (some 3))) ∧
    executions (migrateStorage identityFold demoFlags noFaults 3 (webWorld "Retain")).state.trace =
      [.restoreReplicas .Deployment "app" "web" (some 3)] ∧
    findWorkload (migrateStorage identityFold demoFlags noFaults 3 (webWorld "Retain")).state.world
      .Deployment "app" "web" = some (webAt (some 3)) ∧
    findWorkload (migrateStorage identityFold demoFlags noFaults 3 (webWorld "Retain")).state.world
      .ReplicaSet "app" "web-a" = some (webRS "web-a") := by
  refine ⟨?_, by decide, by decide, by decide⟩
  obtain ⟨⟨s2, h1, h2, h3, h4, h5, h6⟩, h7⟩ :=
    C4_replicaset_owner_is_scaled identityFold demoFlags noFaults 3 "Premium_LRS" (pv1 "Retain")
      (initial (webWorld "Retain"))
      { Kind := "PersistentVolumeClaim", Name := "data-1", Namespace := "app", APIVersion := "v1" }
      (initial (webWorld "Retain"))
      ((initial (webWorld "Retain")).emit (.listPods "app") true (webWorld "Retain"))
      ((initial (webWorld "Retain")).emit (.listPods "app") true (webWorld "Retain"))
      ((initial (webWorld "Retain")).emit (.listPods "app") true (webWorld "Retain"))
      [] [] (podOf "web-a-1" "ReplicaSet" "web-a" "1") [] []
      { Name := "data", PersistentVolumeClaim := some "data-1" } "data-1" "web-a" [] []
      { Kind := "Deployment", Name := "web" } (webRS "web-a") (webAt (some 3))
      (by decide) rfl (by decide) (by decide) rfl rfl rfl rfl (by decide) rfl (by decide)
      (by decide) (by decide) rfl (by decide) (by decide) (by decide) (by decide) (by decide)
      (by decide)
  refine ⟨s2, h1, ?_, h4, h5, h6, ?_⟩
  · rw [h3, h2]
    rfl
  · exact (h7 s2 (webAt (some 0)) h4 (by simp [noFaults]) (by simp [noFaults])).1

theorem runDeferred_unwind (env : Nat → Reply) (d : Deferred) (st : State) :
    Grows UnwindEvent st (runDeferred env d st) := by
  cases d with
  | deletePV pvName =>
    simp only [runDeferred]
    exact deletePV_grows (b := (deletePV env pvName st).1) rfl trivial
  | restoreDaemonSet ns name =>
    simp only [runDeferred]
    exact (getWorkload_grows (r := (getWorkload env .DaemonSet ns name st).1) rfl
      (fun _ => trivial)).trans (updateWorkload_grows rfl trivial)
  | restoreReplicas kind ns name orig =>
    simp only [runDeferred]
    exact (getWorkload_grows (r := (getWorkload env kind ns name st).1) rfl
      (fun _ => trivial)).trans (updateWorkload_grows rfl trivial)

theorem runDefers_unwind (env : Nat → Reply) (ds : List Deferred) (st : State) :
    ∃ tail, (runDefers env ds st).trace = st.trace ++ tail ∧ ∀ e ∈ tail, UnwindEvent e := by
  induction ds generalizing st with
  | nil => exact ⟨[], by simp [runDefers], by simp⟩
  | cons d ds ih =>
    obtain ⟨evs, ht, hp, _⟩ :=
      runDeferred_unwind env d { st with trace := st.trace ++ [Event.ran d] }
    obtain ⟨tail, h1, h2⟩ :=
      ih (runDeferred env d { st with trace := st.trace ++ [Event.ran d] })
    refine ⟨Event.ran d :: (evs ++ tail), ?_, ?_⟩
    · simp only [runDefers]
      rw [h1, ht]
      simp
    · intro e he
      rcases List.mem_cons.1 he with rfl | he
      · trivial
      · rcases List.mem_append.1 he with h | h
        · exact hp e h
        · exact h2 e h

/-- Every entry of the log of a run is a preflight request, an entry of a loop
iteration or an entry of the unwinding. -/
theorem migrateStorage_events (fold : Char → Char) (flags : Flags) (env : Nat → Reply)
    (fuel : Nat) (w : World) :
    ∀ e ∈ (migrateStorage fold flags env fuel w).state.trace, RunEvent flags e := by
  have h0 : (∀ e ∈ (initial w).trace, RunEvent flags e) := by simp [initial]
  have pre : ∀ st, Grows (PreflightEvent flags) (initial w) st →
      ∀ e ∈ st.trace, RunEvent flags e :=
    fun st g e he => Or.inl ((preflight_only g).1 e he)
  unfold migrateStorage
  simp only
  split
  · exact h0
  · split
    · exact h0
    · split
      · exact h0
      · split
        next st1 h1 => exact pre _ (mkdir_step flags env _ _ _ h1).1
        next st1 h1 =>
          have g1 := (mkdir_step flags env _ _ _ h1).1
          split
          next st2 h2 => exact pre _ (g1.trans (getStorageClass_step flags env _ _ _ h2).1)
          next sc st2 h2 =>
            have g2 := g1.trans (getStorageClass_step flags env _ _ _ h2).1
            split
            · exact pre _ g2
            · split
              next st3 h3 => exact pre _ (g2.trans (listPVs_step flags env _ _ _ h3).1)
              next pvs st3 h3 =>
                have g3 := g2.trans (listPVs_step flags env _ _ _ h3).1
                have gl := volumeLoop_grows fold flags env fuel
                  ((mapGet sc.Parameters "skuname").getD "") pvs st3
                have loop : ∀ st4, (volumeLoop fold flags env fuel
                    ((mapGet sc.Parameters "skuname").getD "") pvs st3).state = st4 →
                    ∀ e ∈ st4.trace, RunEvent flags e := by
                  intro st4 hst4 e he
                  rw [hst4] at gl
                  obtain ⟨evs, ht, hp, _⟩ := gl
                  rw [ht] at he
                  rcases List.mem_append.1 he with h | h
                  · exact pre _ g3 e h
                  · exact Or.inr (Or.inl (hp e h))
                have fin : ∀ st4, (volumeLoop fold flags env fuel
                    ((mapGet sc.Parameters "skuname").getD "") pvs st3).state = st4 →
                    ∀ e ∈ (unwind env st4).trace, RunEvent flags e := by
                  intro st4 hst4 e he
                  obtain ⟨tail, ht, hp⟩ := runDefers_unwind env st4.deferred
                    { st4 with deferred := [] }
                  unfold unwind at he
                  rw [ht] at he
                  rcases List.mem_append.1 he with h | h
                  · exact loop st4 hst4 e h
                  · exact Or.inr (Or.inr (hp e h))
                split
                next st4 h4 => exact fin st4 (by rw [h4]; rfl)
                next st4 h4 => exact fin st4 (by rw [h4]; rfl)
                next st4 h4 => exact fin st4 (by rw [h4]; rfl)
                next st4 h4 => exact loop st4 (by rw [h4]; rfl)

/-- Every volume a run asks to create is a new volume built at lines 355-391. -/
theorem migrateStorage_creates (fold : Char → Char) (flags : Flags) (env : Nat → Reply)
    (fuel : Nat) (w : World) (p : PersistentVolume) (ok : Bool)
    (h : Event.call (.createPV p) ok ∈ (migrateStorage fold flags env fuel w).state.trace) :
    ∃ skuName old ns name uri, p = newPV flags.newStorageClass skuName old ns name uri := by
  rcases migrateStorage_events fold flags env fuel w _ h with h1 | ⟨skuName, pv, h1⟩ | h1
  · exact absurd h1 (by simp [PreflightEvent])
  · rcases h1 with h2 | h2 | h2
    · exact absurd h2 (by simp [RetainEvent])
    · exact absurd h2 (by simp [PauseEvent])
    · obtain ⟨ns, name, uri, rfl⟩ := h2
      exact ⟨skuName, pv, ns, name, uri, rfl⟩
  · exact absurd h1 (by simp [UnwindEvent])

/-- A volume the checks pass over is not eligible. -/
theorem skipped_not_eligible (fold : Char → Char) (flags : Flags) (pv : PersistentVolume)
    (h : skipped fold flags pv = true) : eligible fold flags pv = false := by
  unfold skipped at h
  unfold eligible
  cases hp : provisioned pv
  · rfl
  · cases hc : pv.ClaimRef with
    | none => simp [hp, hc] at h
    | some claimRef =>
      cases ha : pv.AzureDisk with
      | none => simp [hp, hc, ha] at h
      | some azureDisk =>
        simp only [hp, hc, ha, Bool.not_true, Bool.false_or, Bool.or_eq_true,
          Bool.not_eq_true'] at h
        rcases h with h | h <;> simp [h]

/-- A run over a cluster in which every listed volume is passed over changes nothing
and logs only the preflight requests. -/
theorem migrateStorage_all_skipped (fold : Char → Char) (flags : Flags) (env : Nat → Reply)
    (fuel : Nat) (w : World) (hskip : ∀ pv ∈ w.pvs, skipped fold flags pv = true) :
    (migrateStorage fold flags env fuel w).state.world = w ∧
      ∀ e ∈ (migrateStorage fold flags env fuel w).state.trace, PreflightEvent flags e := by
  have h0 : (∀ e ∈ (initial w).trace, PreflightEvent flags e) := by simp [initial]
  unfold migrateStorage
  simp only
  split
  · exact ⟨rfl, h0⟩
  · split
    · exact ⟨rfl, h0⟩
    · split
      · exact ⟨rfl, h0⟩
      · split
        next st1 h1 =>
          obtain ⟨g1, w1⟩ := mkdir_step flags env _ _ _ h1
          exact ⟨w1, (preflight_only g1).1⟩
        next st1 h1 =>
          obtain ⟨g1, w1⟩ := mkdir_step flags env _ _ _ h1
          split
          next st2 h2 =>
            obtain ⟨g2, w2⟩ := getStorageClass_step flags env _ _ _ h2
            exact ⟨w2.trans w1, (preflight_only (g1.trans g2)).1⟩
          next sc st2 h2 =>
            obtain ⟨g2, w2⟩ := getStorageClass_step flags env _ _ _ h2
            split
            · exact ⟨w2.trans w1, (preflight_only (g1.trans g2)).1⟩
            · split
              next st3 h3 =>
                obtain ⟨g3, w3, _⟩ := listPVs_step flags env _ _ _ h3
                exact ⟨(w3.trans w2).trans w1, (preflight_only ((g1.trans g2).trans g3)).1⟩
              next pvs st3 h3 =>
                obtain ⟨g3, w3, hl⟩ := listPVs_step flags env _ _ _ h3
                have hpvs : pvs = w.pvs := by
                  rw [hl pvs rfl, w2, w1]; rfl
                subst hpvs
                rw [volumeLoop_skipped fold flags env fuel _ _ st3 hskip]
                obtain ⟨ht, hd⟩ := preflight_only ((g1.trans g2).trans g3)
                simp only [Exit.state, unwind, hd, runDefers]
                exact ⟨(w3.trans w2).trans w1, ht⟩

/-- C7 (amended). Take a run of migrateStorage, whatever its outcome, and a second run
with the same flags on the cluster the first run left.  Every volume the first run
asked to create is passed over by the checks of lines 110-130 (it lacks the provenance
annotation of the source provisioner) and so is not eligible.  When every volume
listed after the first run is such a volume or is otherwise passed over by those checks
- so when no old volume that is still eligible is listed any more - the second run
finds no eligible volume, logs nothing but the directory creation, the read of the
target storage class and the volume listing (no update, create or delete request), and
leaves the cluster and the files as they are. -/
theorem C7_second_run_without_source_volumes_changes_nothing (fold : Char → Char)
    (flags : Flags) (env1 env2 : Nat → Reply) (fuel1 fuel2 : Nat) (w : World)
    (h : ∀ pv ∈ (migrateStorage fold flags env1 fuel1 w).state.world.pvs,
      skipped fold flags pv = true ∨
        ∃ ok, Event.call (.createPV pv) ok ∈
          (migrateStorage fold flags env1 fuel1 w).state.trace) :
    (∀ p ok, Event.call (.createPV p) ok ∈
        (migrateStorage fold flags env1 fuel1 w).state.trace →
      skipped fold flags p = true ∧ eligible fold flags p = false) ∧
    (∀ pv ∈ (migrateStorage fold flags env1 fuel1 w).state.world.pvs,
      eligible fold flags pv = false) ∧
    (migrateStorage fold flags env2 fuel2
        (migrateStorage fold flags env1 fuel1 w).state.world).state.world =
      (migrateStorage fold flags env1 fuel1 w).state.world ∧
    ∀ e ∈ (migrateStorage fold flags env2 fuel2
        (migrateStorage fold flags env1 fuel1 w).state.world).state.trace,
      PreflightEvent flags e := by
  have hnew : ∀ p ok, Event.call (.createPV p) ok ∈
      (migrateStorage fold flags env1 fuel1 w).state.trace → skipped fold flags p = true := by
    intro p ok hp
    obtain ⟨skuName, old, ns, name, uri, rfl⟩ := migrateStorage_creates fold flags env1 fuel1 w p ok hp
    exact skipped_newPV ..
  have hskip : ∀ pv ∈ (migrateStorage fold flags env1 fuel1 w).state.world.pvs,
      skipped fold flags pv = true := by
    intro pv hpv
    rcases h pv hpv with h1 | ⟨ok, h1⟩
    · exact h1
    · exact hnew pv ok h1
  exact ⟨fun p ok hp => ⟨hnew p ok hp, skipped_not_eligible fold flags p (hnew p ok hp)⟩,
    fun pv hpv => skipped_not_eligible fold flags pv (hskip pv hpv),
    migrateStorage_all_skipped fold flags env2 fuel2 _ hskip⟩

/-- C7 (amended) at the scenario run with delete-migrated set and policy Delete: the
first run migrates pv-1 and deletes it at the end, so only pv-1-csi is listed, and the
second run changes nothing. -/
theorem C7_witness :
    (migrateStorage identityFold deleteFlags noFaults 3 (webWorld "Delete")).state.world.pvs =
        [newPV "managed-csi" "Premium_LRS" (pv1 "Delete") "app" "data-1" "disk-uri-1"] ∧
      (migrateStorage identityFold deleteFlags noFaults 3
          (migrateStorage identityFold deleteFlags noFaults 3
            (webWorld "Delete")).state.world).state.world =
        (migrateStorage identityFold deleteFlags noFaults 3 (webWorld "Delete")).state.world ∧
      ∀ e ∈ (migrateStorage identityFold deleteFlags noFaults 3
          (migrateStorage identityFold deleteFlags noFaults 3
            (webWorld "Delete")).state.world).state.trace,
        PreflightEvent deleteFlags e :=
  have hpvs : (migrateStorage identityFold deleteFlags noFaults 3
      (webWorld "Delete")).state.world.pvs =
      [newPV "managed-csi" "Premium_LRS" (pv1 "Delete") "app" "data-1" "disk-uri-1"] := by
    decide
  ⟨hpvs,
    (C7_second_run_without_source_volumes_changes_nothing identityFold deleteFlags noFaults
      noFaults 3 3 (webWorld "Delete")
      (by
        intro pv hpv
        rw [hpvs] at hpv
        rw [List.mem_singleton.1 hpv]
        exact Or.inr ⟨true, by decide⟩)).2.2⟩

/-- Writing the volume manifest and creating the new volume leave the claims as stored. -/
theorem claimReadState_pvcs (flags : Flags) (env : Nat → Reply) (skuName : String)
    (pv : PersistentVolume) (ns name uri : String) (st : State) :
    (claimReadState flags env skuName pv ns name uri st).world.pvcs = st.world.pvcs := by
  unfold claimReadState createPV writeFile
  split <;> split <;> rfl

theorem cutover_claims (flags : Flags) (env : Nat → Reply) (fuel : Nat) (skuName : String)
    (pv : PersistentVolume) (ns name uri : String) (st : State) :
    Grows (ClaimEvent flags env pv ns name (claimReadState flags env skuName pv ns name uri st))
      st (cutover flags env fuel skuName pv ns name uri st).state := by
  generalize hsr : claimReadState flags env skuName pv ns name uri st = sr
  unfold cutover
  split
  next s1 h1 => exact writeFile_grows h1 trivial
  next s1 h1 =>
  have g1 : Grows (ClaimEvent flags env pv ns name sr) st s1 := writeFile_grows h1 trivial
  split
  next s2 h2 => exact g1.trans (createPV_grows h2 trivial)
  next s2 h2 =>
  have g2 := g1.trans (createPV_grows (P := ClaimEvent flags env pv ns name sr) h2 trivial)
  have hs2 : sr = s2 := by
    rw [← hsr]; unfold claimReadState; rw [h1]; simp only; rw [h2]
  subst hs2
  split
  next e s3 h3 => exact g2.trans (getPVC_grows h3 (fun _ => trivial))
  next existingPVC s3 h3 =>
  have g3 := g2.trans (getPVC_grows (P := ClaimEvent flags env pv ns name sr) h3
    (fun _ => trivial))
  split
  next s4 h4 => exact g3.trans (writeFile_grows h4 ⟨_, _, h3, Or.inl rfl⟩)
  next s4 h4 =>
  have g4 := g3.trans (writeFile_grows (P := ClaimEvent flags env pv ns name sr) h4
    ⟨_, _, h3, Or.inl rfl⟩)
  split
  next s5 h5 => exact g4.trans (writeFile_grows h5 ⟨_, _, h3, Or.inr rfl⟩)
  next s5 h5 =>
  have g5 := g4.trans (writeFile_grows (P := ClaimEvent flags env pv ns name sr) h5
    ⟨_, _, h3, Or.inr rfl⟩)
  split
  next s6 h6 => exact g5.trans (deletePVC_grows h6 trivial)
  next s6 h6 =>
  have g6 := g5.trans (deletePVC_grows (P := ClaimEvent flags env pv ns name sr) h6 trivial)
  split
  next h7 => exact g6
  next s7 h7 =>
  have g7 := g6.trans (waitForDeletion_grows (P := ClaimEvent flags env pv ns name sr) env ns
    name (fun _ => trivial) fuel s6 s7 h7)
  split
  next s8 h8 => exact g7.trans (createPVC_grows h8 ⟨rfl, _, _, h3, rfl⟩)
  next s8 h8 => exact g7.trans (createPVC_grows h8 ⟨rfl, _, _, h3, rfl⟩)

/-- The claims an iteration sends: none in the retain and pause steps, and in the
cutover only the claim read at line 416 and its replacement. -/
theorem processPV_claims (fold : Char → Char) (flags : Flags) (env : Nat → Reply) (fuel : Nat)
    (skuName : String) (pv : PersistentVolume) (st : State) :
    Grows (IterationEvent fold flags env skuName pv st) st
      (processPV fold flags env fuel skuName pv st).state := by
  unfold processPV
  split
  · exact Grows.refl _ _
  · split
    · exact Grows.refl _ _
    next claimRef hc =>
      split
      · exact Grows.refl _ _
      next azureDisk ha =>
        split
        · exact Grows.refl _ _
        · split
          · exact Grows.refl _ _
          · unfold migrate
            have gr := (retain_grows env flags pv st).mono
              (Q := IterationEvent fold flags env skuName pv st) (fun _ h => Or.inl h)
            split
            next s1 h1 =>
              rw [h1] at gr
              have gp := (pauseConsumers_grows fold env claimRef.Namespace claimRef.Name s1).mono
                (Q := IterationEvent fold flags env skuName pv st) (fun _ h => Or.inr (Or.inl h))
              split
              next s2 h2 =>
                rw [h2] at gp
                exact (gr.trans gp).trans
                  ((cutover_claims flags env fuel skuName pv claimRef.Namespace claimRef.Name
                    azureDisk.DataDiskURI s2).mono
                    (fun _ h => Or.inr (Or.inr ⟨claimRef, azureDisk, s1, s2, hc, ha, h1, h2, h⟩)))
              next other hother => exact gr.trans gp
            next other hother => exact gr

/-- C11. Every claim the loop iteration of a volume sends for creation is the
replacement of the claim that this iteration read at line 416: the retain step fell
through, the pause step fell through, the cutover wrote the volume manifest and
requested the new volume, and the `Get` issued in the state reached then returned the
claim `old` stored under the namespace and name of the volume's claim reference.  The
claim sent is built from `old` (lines 437-456) and goes to the namespace of `old`; it
has the name, namespace and labels of `old`, and its annotations are those of `old`
without pv.kubernetes.io/bind-completed: that key is absent and every other key has its
old value.  Every claim the iteration writes to a file is `old` or that replacement,
and an iteration that runs to its end has created a claim. -/
theorem C11_replacement_claim_keeps_metadata (fold : Char → Char) (flags : Flags)
    (env : Nat → Reply) (fuel : Nat) (skuName : String) (pv : PersistentVolume) (st : State) :
    (∀ ns c ok, Event.call (.createPVC ns c) ok ∈
        newEvents st (processPV fold flags env fuel skuName pv st).state →
      ∃ claimRef azureDisk s1 s2 old s3,
        pv.ClaimRef = some claimRef ∧ pv.AzureDisk = some azureDisk ∧
        retain env flags.deletePVs pv st = .proceed s1 ∧
        pauseConsumers fold env claimRef.Namespace claimRef.Name s1 = .proceed s2 ∧
        getPVC env claimRef.Namespace claimRef.Name
            (claimReadState flags env skuName pv claimRef.Namespace claimRef.Name
              azureDisk.DataDiskURI s2) = (.ok old, s3) ∧
        s2.world.pvcs.find?
            (fun x => x.Namespace == claimRef.Namespace && x.Name == claimRef.Name) =
          some old ∧
        ns = old.Namespace ∧
        c = newPVC flags.newStorageClass pv claimRef.Namespace claimRef.Name old ∧
        c.Name = old.Name ∧ c.Namespace = old.Namespace ∧ c.Labels = old.Labels ∧
        c.Annotations =
          old.Annotations.filter (fun e => e.1 != "pv.kubernetes.io/bind-completed") ∧
        c.Annotations.lookup "pv.kubernetes.io/bind-completed" = none ∧
        ∀ k, k ≠ "pv.kubernetes.io/bind-completed" →
          c.Annotations.lookup k = old.Annotations.lookup k) ∧
    (∀ path c ok, Event.call (.writeFile path (.claim c)) ok ∈
        newEvents st (processPV fold flags env fuel skuName pv st).state →
      ∃ claimRef azureDisk s1 s2 old s3,
        pv.ClaimRef = some claimRef ∧ pv.AzureDisk = some azureDisk ∧
        retain env flags.deletePVs pv st = .proceed s1 ∧
        pauseConsumers fold env claimRef.Namespace claimRef.Name s1 = .proceed s2 ∧
        getPVC env claimRef.Namespace claimRef.Name
            (claimReadState flags env skuName pv claimRef.Namespace claimRef.Name
              azureDisk.DataDiskURI s2) = (.ok old, s3) ∧
        (c = old ∨ c = newPVC flags.newStorageClass pv claimRef.Namespace claimRef.Name old)) ∧
    (∀ s, processPV fold flags env fuel skuName pv st = .proceed s →
      ∃ ns c, Event.call (.createPVC ns c) true ∈ newEvents st s) := by
  have hall := (processPV_claims fold flags env fuel skuName pv st).newEvents
  refine ⟨?_, ?_, ?_⟩
  · intro ns c ok hmem
    rcases hall _ hmem with h | h | h
    · exact absurd h (by simp [RetainEvent])
    · exact absurd h (by simp [PauseEvent])
    · obtain ⟨claimRef, azureDisk, s1, s2, hc, ha, h1, h2, hns, old, s3, hget, hnew⟩ := h
      obtain ⟨hfind, hons, honame⟩ := getPVC_found hget
      have hstored : s2.world.pvcs.find?
          (fun x => x.Namespace == claimRef.Namespace && x.Name == claimRef.Name) =
          some old := by
        rw [← claimReadState_pvcs flags env skuName pv claimRef.Namespace claimRef.Name
          azureDisk.DataDiskURI s2]
        exact hfind
      have hann : c.Annotations =
          old.Annotations.filter (fun e => e.1 != "pv.kubernetes.io/bind-completed") := by
        rw [hnew]; rfl
      refine ⟨claimRef, azureDisk, s1, s2, old, s3, hc, ha, h1, h2, hget, hstored,
        hns.trans hons.symm, hnew, ?_, ?_, ?_, hann, ?_, ?_⟩
      · rw [hnew]; exact honame.symm
      · rw [hnew]; exact hons.symm
      · rw [hnew]; rfl
      · rw [hann]; exact mapGet_mapDelete_same _ _
      · intro k hk
        rw [hann]; exact mapGet_mapDelete_other _ _ _ hk
  · intro path c ok hmem
    rcases hall _ hmem with h | h | h
    · exact absurd h (by simp [RetainEvent])
    · exact absurd h (by simp [PauseEvent])
    · obtain ⟨claimRef, azureDisk, s1, s2, hc, ha, h1, h2, old, s3, hget, hor⟩ := h
      exact ⟨claimRef, azureDisk, s1, s2, old, s3, hc, ha, h1, h2, hget, hor⟩
  · intro s hs
    unfold processPV at hs
    split at hs
    · cases hs
    · split at hs
      · cases hs
      · split at hs
        · cases hs
        · split at hs
          · cases hs
          · split at hs
            · cases hs
            · obtain ⟨old, _, hb⟩ := migrate_proceed _ _ _ _ _ _ _ _ _ _ _ hs
              exact ⟨_, _, hb⟩

/-- C11 at the scenario claim with two annotations: the iteration of pv-1 runs to its
end, the claim it read is the stored claim data-1, and the claim it created keeps
name, namespace, labels and the storage-provisioner annotation and has lost
bind-completed. -/
theorem C11_witness :
    ∃ c, Event.call (.createPVC "app" c) true ∈
        newEvents (initial annotatedWorld)
          (processPV identityFold demoFlags noFaults 3 "Premium_LRS" (pv1 "Retain")
            (initial annotatedWorld)).state ∧
      c.Name = "data-1" ∧ c.Namespace = "app" ∧ c.Labels = [("app", "web")] ∧
      c.Annotations =
        [("volume.beta.kubernetes.io/storage-provisioner", "kubernetes.io/azure-disk")] := by
  obtain ⟨ns, c, hmem⟩ :=
    (C11_replacement_claim_keeps_metadata identityFold demoFlags noFaults 3 "Premium_LRS"
      (pv1 "Retain") (initial annotatedWorld)).2.2
      (processPV identityFold demoFlags noFaults 3 "Premium_LRS" (pv1 "Retain")
        (initial annotatedWorld)).state (by decide)
  obtain ⟨claimRef, azureDisk, s1, s2, old, s3, hc, ha, hr, hp, hget, hfind, hns, hnew, hname,
      hnsp, hlab, hann, _, _⟩ :=
    (C11_replacement_claim_keeps_metadata identityFold demoFlags noFaults 3 "Premium_LRS"
      (pv1 "Retain") (initial annotatedWorld)).1 ns c true hmem
  have hcr : claimRef = ⟨"PersistentVolumeClaim", "data-1", "app", "v1"⟩ :=
    (Option.some.inj hc).symm
  subst hcr
  have hs1 : s1 = initial annotatedWorld := by
    have : retain noFaults demoFlags.deletePVs (pv1 "Retain") (initial annotatedWorld) =
        .proceed (initial annotatedWorld) := by decide
    rw [this] at hr
    exact (Flow.proceed.inj hr).symm
  subst hs1
  have hs2 : s2 = (initial annotatedWorld).emit (.listPods "app") true annotatedWorld := by
    have : pauseConsumers identityFold noFaults "app" "data-1" (initial annotatedWorld) =
        .proceed ((initial annotatedWorld).emit (.listPods "app") true annotatedWorld) := by
      decide
    exact (Flow.proceed.inj (this.symm.trans hp)).symm
  subst hs2
  have hold : old = annotatedPVC := (Option.some.inj hfind).symm
  subst hold
  refine ⟨c, ?_, hname, hnsp, hlab, hann⟩
  rw [hns] at hmem
  exact hmem

end PVMigration
